import Mathlib

/-!
Verification of the go-defaultz library (github.com/aliok/go-defaultz).

This file contains a shallow embedding of the library's core:
  * the field-kind / type / value model (mirroring the subset of Go's
    reflection universe the library operates on: bool, signed and unsigned
    integers, string, slice, map, struct and pointer; floating-point kinds
    are left out of the embedding since IEEE semantics are not modelled,
    and no claim depends on them),
  * the tag-based default extractor (defaultextractor.go),
  * the built-in defaulters (basic_defaulters.go),
  * the registry and the recursive traversal engine (defaultz.go),
  * the static type-graph cycle detector (cycles.go),
followed by theorems settling the specification claims.

Go's recursion is modelled with an explicit fuel parameter: the traversal
genuinely diverges on cyclic type definitions (which is exactly why the
library runs the cycle detector first), so fuel exhaustion is reported via
a distinguished `outOfFuel` result that faithfully marks divergence.
-/

set_option maxHeartbeats 1600000

namespace Defaultz

/-! ### Go string helpers (strings / strconv / unicode stdlib used by the library) -/

/-- unicode.IsSpace restricted to the Latin-1 space set actually used by
the library's inputs (' ', '\t', '\n', '\v', '\f', '\r', U+0085, U+00A0);
further Unicode space classes are not modelled. -/
def goIsSpace (c : Char) : Bool :=
  c = ' ' || c = '\t' || c = '\n' || c = Char.ofNat 11 || c = Char.ofNat 12 ||
  c = '\r' || c = Char.ofNat 0x85 || c = Char.ofNat 0xA0

/-- strings.TrimSpace: drop leading and trailing whitespace. -/
def goTrimSpace (s : String) : String :=
  String.mk (((s.data.dropWhile goIsSpace).reverse.dropWhile goIsSpace).reverse)

/-- strings.HasPrefix. -/
def goHasPfx (s p : String) : Bool :=
  p.data.isPrefixOf s.data

/-- Splitting around every non-overlapping occurrence of a non-empty
separator, left to right.  Each step consumes at least one character, so the
input length bounds the recursion. -/
def splitOnListF (sep : List Char) : Nat → List Char → List Char → List (List Char)
  | _, [], acc => [acc.reverse]
  | 0, cs, acc => [acc.reverse ++ cs]
  | fuel + 1, c :: cs, acc =>
    if sep.isPrefixOf (c :: cs) && !sep.isEmpty then
      acc.reverse :: splitOnListF sep fuel ((c :: cs).drop sep.length) []
    else splitOnListF sep fuel cs (c :: acc)

/-- strings.Split.  For a non-empty separator this is splitting around every
non-overlapping occurrence; an empty separator splits into individual runes. -/
def goSplit (s sep : String) : List String :=
  if sep = "" then s.data.map (fun c => String.mk [c])
  else (splitOnListF sep.data (s.data.length + 1) s.data []).map String.mk

def splitN2ListF (sep : List Char) : Nat → List Char → List Char → List (List Char)
  | _, [], acc => [acc.reverse]
  | 0, cs, acc => [acc.reverse ++ cs]
  | fuel + 1, c :: cs, acc =>
    if sep.isPrefixOf (c :: cs) && !sep.isEmpty then
      [acc.reverse, (c :: cs).drop sep.length]
    else splitN2ListF sep fuel cs (c :: acc)

/-- strings.SplitN with n = 2: at most one split, at the first occurrence. -/
def goSplitN2 (s sep : String) : List String :=
  (splitN2ListF sep.data (s.data.length + 1) s.data []).map String.mk

def goFieldsAux : List Char → List Char → List String
  | [], acc => if acc.isEmpty then [] else [String.mk acc.reverse]
  | c :: cs, acc =>
    if goIsSpace c then
      if acc.isEmpty then goFieldsAux cs []
      else String.mk acc.reverse :: goFieldsAux cs []
    else goFieldsAux cs (c :: acc)

/-- strings.Fields: split around runs of whitespace. -/
def goFields (s : String) : List String := goFieldsAux s.data []

def digitsToNat (l : List Char) : Nat :=
  l.foldl (fun acc c => acc * 10 + (c.toNat - '0'.toNat)) 0

/-- strconv.ParseInt with base 10.  `bits` is the bit size (the library maps
Go's platform-dependent bitSize 0 to 64).  Out-of-range values error, as the
callers treat any ParseInt error as failure. -/
def goParseInt (s : String) (bits : Nat) : Except String Int :=
  let (neg, digits) :=
    match s.data with
    | '+' :: rest => (false, rest)
    | '-' :: rest => (true, rest)
    | l => (false, l)
  if digits.isEmpty then .error "invalid syntax"
  else if !(digits.all Char.isDigit) then .error "invalid syntax"
  else
    let n : Nat := digitsToNat digits
    let v : Int := if neg then -(n : Int) else (n : Int)
    if v < -(2 ^ (bits - 1) : Int) || v > (2 ^ (bits - 1) : Int) - 1 then
      .error "value out of range"
    else .ok v

/-- strconv.ParseUint with base 10; a sign is not permitted. -/
def goParseUint (s : String) (bits : Nat) : Except String Nat :=
  if s.data.isEmpty then .error "invalid syntax"
  else if !(s.data.all Char.isDigit) then .error "invalid syntax"
  else
    let n := digitsToNat s.data
    if n ≥ 2 ^ bits then .error "value out of range" else .ok n

/-- strconv.ParseBool. -/
def goParseBool (s : String) : Except String Bool :=
  if ["1", "t", "T", "TRUE", "true", "True"].contains s then .ok true
  else if ["0", "f", "F", "FALSE", "false", "False"].contains s then .ok false
  else .error "invalid syntax"

/-- Nanoseconds for a duration unit string, per time.ParseDuration's table. -/
def durUnitNs (u : String) : Option Int :=
  if u = "ns" then some 1
  else if u = "us" || u = "µs" || u = "μs" then some 1000
  else if u = "ms" then some 1000000
  else if u = "s" then some 1000000000
  else if u = "m" then some 60000000000
  else if u = "h" then some 3600000000000
  else none

def parseDurCompsF : Nat → List Char → Except String Int
  | _, [] => .ok 0
  | 0, _ => .error "invalid duration"
  | fuel + 1, cs =>
    let digits := cs.takeWhile Char.isDigit
    let rest := cs.dropWhile Char.isDigit
    if digits.isEmpty then .error "invalid duration"
    else
      let unit := rest.takeWhile (fun c => !(c.isDigit))
      let rest' := rest.dropWhile (fun c => !(c.isDigit))
      match durUnitNs (String.mk unit) with
      | none => .error "missing unit in duration"
      | some ns =>
        match parseDurCompsF fuel rest' with
        | .error e => .error e
        | .ok v => .ok ((digitsToNat digits : Int) * ns + v)

/-- Each component consumes at least one character, so the input length
bounds the number of components. -/
def parseDurComps (cs : List Char) : Except String Int :=
  parseDurCompsF cs.length cs

/-- time.ParseDuration restricted to integral components (fractional
components like "1.5s" are not modelled; no claim exercises them). -/
def goParseDuration (s : String) : Except String Int :=
  let (neg, rest) :=
    match s.data with
    | '+' :: r => (false, r)
    | '-' :: r => (true, r)
    | l => (false, l)
  if rest = ['0'] then .ok 0
  else if rest.isEmpty then .error "invalid duration"
  else
    match parseDurComps rest with
    | .error e => .error e
    | .ok v =>
      let v := if neg then -v else v
      if v < -(2 ^ 63 : Int) || v > (2 ^ 63 : Int) - 1 then .error "invalid duration"
      else .ok v

/-! ### Kinds, types and struct declarations (the reflect.Type fragment) -/

/-- reflect.Kind, restricted to the kinds the library's model covers. -/
inductive Kind where
  | bool | int | int8 | int16 | int32 | int64
  | uint | uint8 | uint16 | uint32 | uint64
  | string | slice | map | struct | ptr
deriving DecidableEq, Repr

/-- A Go type.  Struct types are referenced by name and resolved in an
environment of struct declarations, so that (potentially cyclic) type graphs
are representable. -/
inductive GoType where
  | bool | int | int8 | int16 | int32 | int64
  | uint | uint8 | uint16 | uint32 | uint64
  | string
  | slice (elem : GoType)
  | map (key elem : GoType)
  | structRef (name : String)
  | ptr (elem : GoType)
deriving DecidableEq, Repr

/-- reflect.Type.Kind. -/
def GoType.kind : GoType → Kind
  | .bool => .bool
  | .int => .int
  | .int8 => .int8
  | .int16 => .int16
  | .int32 => .int32
  | .int64 => .int64
  | .uint => .uint
  | .uint8 => .uint8
  | .uint16 => .uint16
  | .uint32 => .uint32
  | .uint64 => .uint64
  | .string => .string
  | .slice _ => .slice
  | .map _ _ => .map
  | .structRef _ => .struct
  | .ptr _ => .ptr

/-- reflect.Type.Elem for pointer, slice and map types (other types are
returned unchanged; Go would panic there, and no modelled code path reaches
Elem on them). -/
def typeElem : GoType → GoType
  | .ptr e => e
  | .slice e => e
  | .map _ v => v
  | t => t

/-- reflect.Type.Key for map types. -/
def typeKey : GoType → GoType
  | .map k _ => k
  | t => t

/-- A struct field: name, declared type, the struct tag (modelled as parsed
key/value pairs, with reflect.StructTag.Lookup as association lookup), and
whether reflect.Value.CanSet holds for it (false for unexported fields). -/
structure StructField where
  name : String
  type : GoType
  tag : List (String × String)
  canSet : Bool
deriving DecidableEq, Repr

/-- reflect.StructTag.Lookup. -/
def tagLookup (tag : List (String × String)) (key : String) : Option String :=
  match tag.find? (fun p => p.1 == key) with
  | some p => some p.2
  | none => none

/-- A named struct declaration. -/
structure StructDef where
  name : String
  pkgPath : String
  fields : List StructField
deriving DecidableEq, Repr

/-- The type environment: all struct declarations in scope. -/
abbrev Env := List StructDef

def lookupStruct (env : Env) (n : String) : Option StructDef :=
  env.find? (fun sd => sd.name == n)

/-! ### Values (the reflect.Value fragment) -/

/-- A Go value.  `none` in slice/map/ptr is Go's nil. -/
inductive GoValue where
  | bool (b : Bool)
  | int (v : Int)
  | uint (v : Nat)
  | str (s : String)
  | slice (elems : Option (List GoValue))
  | map (entries : Option (List (GoValue × GoValue)))
  | struct (fields : List GoValue)
  | ptr (v : Option GoValue)
deriving Repr

mutual
/-- reflect.Value.IsZero. -/
def isZero : GoValue → Bool
  | .bool b => !b
  | .int v => v == 0
  | .uint v => v == 0
  | .str s => s == ""
  | .slice o => o.isNone
  | .map o => o.isNone
  | .struct fs => isZeroList fs
  | .ptr o => o.isNone
def isZeroList : List GoValue → Bool
  | [] => true
  | v :: vs => isZero v && isZeroList vs
end

mutual
/-- Structural equality of Go values (Go's == on comparable values;
used for map-key identity in SetMapIndex). -/
def beqVal : GoValue → GoValue → Bool
  | .bool a, .bool b => a == b
  | .int a, .int b => a == b
  | .uint a, .uint b => a == b
  | .str a, .str b => a == b
  | .slice none, .slice none => true
  | .slice (some a), .slice (some b) => beqValList a b
  | .map none, .map none => true
  | .map (some a), .map (some b) => beqValPairs a b
  | .struct a, .struct b => beqValList a b
  | .ptr none, .ptr none => true
  | .ptr (some a), .ptr (some b) => beqVal a b
  | _, _ => false
def beqValList : List GoValue → List GoValue → Bool
  | [], [] => true
  | a :: as', b :: bs' => beqVal a b && beqValList as' bs'
  | _, _ => false
def beqValPairs : List (GoValue × GoValue) → List (GoValue × GoValue) → Bool
  | [], [] => true
  | (ka, va) :: as', (kb, vb) :: bs' => beqVal ka kb && beqVal va vb && beqValPairs as' bs'
  | _, _ => false
end

/-- reflect.New / the zero value of a type.  Struct zero values materialise
the zero values of all fields, so a fuel bound is needed (Go types cannot
nest a struct inside itself without indirection, but the environment can
express such ill-formed declarations). -/
def zeroValue (env : Env) : Nat → GoType → GoValue
  | _, .bool => .bool false
  | _, .int => .int 0
  | _, .int8 => .int 0
  | _, .int16 => .int 0
  | _, .int32 => .int 0
  | _, .int64 => .int 0
  | _, .uint => .uint 0
  | _, .uint8 => .uint 0
  | _, .uint16 => .uint 0
  | _, .uint32 => .uint 0
  | _, .uint64 => .uint 0
  | _, .string => .str ""
  | _, .slice _ => .slice none
  | _, .map _ _ => .map none
  | _, .ptr _ => .ptr none
  | 0, .structRef _ => .struct []
  | fuel + 1, .structRef s =>
    match lookupStruct env s with
    | none => .struct []
    | some sd => .struct (sd.fields.map (fun f => zeroValue env fuel f.type))

/-! ### The tag-based default extractor (defaultextractor.go) -/

/-- strings.TrimPrefix. -/
def goTrimPfx (s p : String) : String :=
  if goHasPfx s p then String.mk (s.data.drop p.data.length) else s

/-- DefaultzExtractor: tag name, required value marker, token separator.
The source names the second field `Pre` + `fix`; it is abbreviated here. -/
structure DefaultzExtractor where
  tagName : String
  pfx : String
  separator : String
deriving DecidableEq, Repr

/-- The for-loop of ExtractDefault: trim each token and return the first
one carrying the marker, with the marker removed. -/
def firstTokenWithPfx (p : String) : List String → Option String
  | [] => none
  | part :: rest =>
    let part := goTrimSpace part
    if goHasPfx part p then some (goTrimPfx part p)
    else firstTokenWithPfx p rest

/-- DefaultzExtractor.ExtractDefault: returns (defaultStr, found, err). -/
def DefaultzExtractor.extractDefault (d : DefaultzExtractor) (field : StructField) :
    String × Bool × Option String :=
  match tagLookup field.tag d.tagName with
  | none => ("", false, none)
  | some tag =>
    if tag = "" then ("", false, none)
    else
      match firstTokenWithPfx d.pfx (goSplit tag d.separator) with
      | some v => (v, true, none)
      | none => ("", false, none)

/-- The extractor installed by the package-level registry:
NewDefaultzExtractor("default", "", ","). -/
def extractorInstance : DefaultzExtractor := ⟨"default", "", ","⟩

/-! ### Errors (errors.go and the engine's wrapping) -/

/-- The error sentinels of errors.go. -/
inductive ErrKind where
  | cannotSetField
  | cannotExtractDefault
  | invalidDefaultValue
  | invalidDefaultValueItem
  | invalidDefaultValueKey
  | notSupported
deriving DecidableEq, Repr

/-- defaultz.Error: which defaulter raised it (by name, if any), the error
sentinel, the path of the enclosing struct, the field's name, and a message. -/
structure DError where
  defaulterName : Option String
  err : ErrKind
  fieldPath : String
  fieldName : String
  msg : String
deriving DecidableEq, Repr

/-- The error outcomes of ApplyDefaults/DoApplyDefaults.  `outOfFuel` marks
divergence of the (fuel-modelled) recursion; the remaining constructors map
one-to-one onto the errors the Go code returns:
`invalidInput` = "object must be a pointer to a struct",
`cyclicType` = "type definition must not have cycles",
`extractorNotSet` = "default extractor is not set",
`noDefaulters` = "no defaulters are registered",
`fieldErr` = a defaultz.Error returned as-is,
`applySingle` = fmt.Errorf("failed to apply default value : %w", e),
`applyMulti` = the multierror aggregate of the chain's collected errors. -/
inductive EngineErr where
  | invalidInput
  | cyclicType
  | extractorNotSet
  | noDefaulters
  | fieldErr (e : DError)
  | applySingle (e : DError)
  | applyMulti (es : List DError)
  | outOfFuel
deriving DecidableEq, Repr

/-! ### Defaulters (basic_defaulters.go) -/

/-- A Defaulter: a name, the kinds it handles, and HandleField returning
(callNext, set, err, new field value).  Go's HandleField mutates the field
through reflection; the model returns the updated value instead. -/
structure Defaulter where
  name : String
  handledKinds : List Kind
  handleField : String → String → StructField → GoValue → Bool × Bool × Option DError × GoValue

/-- The common pointer handling of the scalar defaulters: if the field is a
pointer, allocate if nil and write the value through it; otherwise write the
value directly. -/
def setLeafPtrAware (fv w : GoValue) : GoValue :=
  match fv with
  | .ptr _ => .ptr (some w)
  | _ => w

/-- BoolDefaulter.HandleField: only the exact strings "true"/"false". -/
def boolHandleField (value path : String) (field : StructField) (fv : GoValue) :
    Bool × Bool × Option DError × GoValue :=
  if value = "true" then (true, true, none, setLeafPtrAware fv (.bool true))
  else if value = "false" then (true, true, none, setLeafPtrAware fv (.bool false))
  else (true, false,
    some ⟨some "defaultz.BoolDefaulter", .invalidDefaultValue, path, field.name,
      "invalid boolean value (not 'true' nor 'false')"⟩, fv)

/-- IntDefaulter's bit size per kind (Go bitSize 0, i.e. platform int,
is modelled as 64). -/
def intBits : Kind → Option Nat
  | .int => some 64
  | .int8 => some 8
  | .int16 => some 16
  | .int32 => some 32
  | .int64 => some 64
  | _ => none

def uintBits : Kind → Option Nat
  | .uint => some 64
  | .uint8 => some 8
  | .uint16 => some 16
  | .uint32 => some 32
  | .uint64 => some 64
  | _ => none

/-- IntDefaulter.HandleField.  The kind is taken from the field's declared
type, unwrapping one pointer level.  The `none` bit-size branch corresponds
to Go's panic for non-integer kinds; it is unreachable through the registry
(IntDefaulter is only registered for integer kinds). -/
def intHandleField (value path : String) (field : StructField) (fv : GoValue) :
    Bool × Bool × Option DError × GoValue :=
  let kind := if field.type.kind = Kind.ptr then (typeElem field.type).kind else field.type.kind
  match intBits kind with
  | none => (true, false, none, fv)
  | some bits =>
    match goParseInt value bits with
    | .error e => (true, false,
        some ⟨some "defaultz.IntDefaulter", .invalidDefaultValue, path, field.name,
          "strconv.ParseInt: " ++ e⟩, fv)
    | .ok v => (true, true, none, setLeafPtrAware fv (.int v))

/-- UintDefaulter.HandleField. -/
def uintHandleField (value path : String) (field : StructField) (fv : GoValue) :
    Bool × Bool × Option DError × GoValue :=
  let kind := if field.type.kind = Kind.ptr then (typeElem field.type).kind else field.type.kind
  match uintBits kind with
  | none => (true, false, none, fv)
  | some bits =>
    match goParseUint value bits with
    | .error e => (true, false,
        some ⟨some "defaultz.UintDefaulter", .invalidDefaultValue, path, field.name,
          "strconv.ParseUint: " ++ e⟩, fv)
    | .ok v => (true, true, none, setLeafPtrAware fv (.uint v))

/-- StringDefaulter.HandleField: the value is set as is (never fails). -/
def stringHandleField (value : String) (_path : String) (_field : StructField) (fv : GoValue) :
    Bool × Bool × Option DError × GoValue :=
  (true, true, none, setLeafPtrAware fv (.str value))

/-- Two's-complement truncation, as performed by reflect.Value.Convert when
converting a 64-bit parse result into a narrower element type. -/
def wrapInt (i : Int) (w : Nat) : Int :=
  let m : Int := 2 ^ w
  let r := ((i % m) + m) % m
  if r < 2 ^ (w - 1) then r else r - m

def intConvWidth : GoType → Nat
  | .int8 => 8
  | .int16 => 16
  | .int32 => 32
  | _ => 64

def uintConvWidth : GoType → Nat
  | .uint8 => 8
  | .uint16 => 16
  | .uint32 => 32
  | _ => 64

/-- convertValue: parse one slice element / map key / map value.  Signed and
unsigned integers are parsed at 64 bits and then converted (truncating) to
the element type, exactly as the source does. -/
def convertValue (value : String) (fieldType : GoType) : Except String GoValue :=
  match fieldType.kind with
  | .bool =>
    match goParseBool value with
    | .error e => .error ("strconv.ParseBool: " ++ e)
    | .ok b => .ok (.bool b)
  | .int | .int8 | .int16 | .int32 | .int64 =>
    match goParseInt value 64 with
    | .error e => .error ("strconv.ParseInt: " ++ e)
    | .ok i => .ok (.int (wrapInt i (intConvWidth fieldType)))
  | .uint | .uint8 | .uint16 | .uint32 | .uint64 =>
    match goParseUint value 64 with
    | .error e => .error ("strconv.ParseUint: " ++ e)
    | .ok u => .ok (.uint (u % 2 ^ (uintConvWidth fieldType)))
  | .string => .ok (.str value)
  | _ => .error "unsupported type"

def convertParts : List String → GoType → Except String (List GoValue)
  | [], _ => .ok []
  | p :: rest, t =>
    match convertValue p t with
    | .error e => .error e
    | .ok v =>
      match convertParts rest t with
      | .error e => .error e
      | .ok vs => .ok (v :: vs)

/-- SliceDefaulter.HandleField: split the spec on whitespace, convert every
part to the element type (first failure aborts before any write), then set
the field to the freshly made slice. -/
def sliceHandleField (value path : String) (field : StructField) (fv : GoValue) :
    Bool × Bool × Option DError × GoValue :=
  let parts := goFields value
  let elemType := typeElem field.type
  match convertParts parts elemType with
  | .error e => (true, false,
      some ⟨some "defaultz.SliceDefaulter", .invalidDefaultValueItem, path, field.name, e⟩, fv)
  | .ok elems => (true, true, none, .slice (some elems))

/-- reflect.Value.SetMapIndex: replace the binding if the key is present,
append otherwise. -/
def mapUpsert : List (GoValue × GoValue) → GoValue → GoValue → List (GoValue × GoValue)
  | [], k, v => [(k, v)]
  | (k', v') :: rest, k, v =>
    if beqVal k' k then (k', v) :: rest else (k', v') :: mapUpsert rest k v

/-- `Sum.inl` marks a key conversion failure, `Sum.inr` an item failure. -/
def convertPairs : List String → GoType → GoType → List (GoValue × GoValue) →
    Except (Bool × String) (List (GoValue × GoValue))
  | [], _, _, acc => .ok acc
  | pair :: rest, keyType, valType, acc =>
    match goSplitN2 pair ":" with
    | [k, v] =>
      match convertValue k keyType with
      | .error e => .error (true, e)
      | .ok kv =>
        match convertValue v valType with
        | .error e => .error (false, e)
        | .ok vv => convertPairs rest keyType valType (mapUpsert acc kv vv)
    | _ => convertPairs rest keyType valType acc

/-- MapDefaulter.HandleField: split on whitespace into "key:value" pairs
(tokens without a colon are silently skipped), convert key and value, and
set the field to the freshly made map. -/
def mapHandleField (value path : String) (field : StructField) (fv : GoValue) :
    Bool × Bool × Option DError × GoValue :=
  let pairs := goFields value
  match convertPairs pairs (typeKey field.type) (typeElem field.type) [] with
  | .error (isKey, e) =>
    (true, false,
      some ⟨some "defaultz.MapDefaulter",
        if isKey then .invalidDefaultValueKey else .invalidDefaultValueItem,
        path, field.name, e⟩, fv)
  | .ok entries => (true, true, none, .map (some entries))

/-- DurationDefaulter.HandleField: parse with time.ParseDuration and store
the nanosecond count (time.Duration is an int64). -/
def durationHandleField (value path : String) (field : StructField) (fv : GoValue) :
    Bool × Bool × Option DError × GoValue :=
  match goParseDuration value with
  | .error e => (true, false,
      some ⟨some "defaultz.DurationDefaulter", .invalidDefaultValue, path, field.name,
        "invalid duration value: " ++ e⟩, fv)
  | .ok d => (true, true, none, setLeafPtrAware fv (.int d))

def boolDefaulter : Defaulter := ⟨"defaultz.BoolDefaulter", [.bool], boolHandleField⟩

def intDefaulter : Defaulter :=
  ⟨"defaultz.IntDefaulter", [.int, .int8, .int16, .int32, .int64], intHandleField⟩

def uintDefaulter : Defaulter :=
  ⟨"defaultz.UintDefaulter", [.uint, .uint8, .uint16, .uint32, .uint64], uintHandleField⟩

def sliceDefaulter : Defaulter := ⟨"defaultz.SliceDefaulter", [.slice], sliceHandleField⟩

def mapDefaulter : Defaulter := ⟨"defaultz.MapDefaulter", [.map], mapHandleField⟩

def stringDefaulter : Defaulter := ⟨"defaultz.StringDefaulter", [.string], stringHandleField⟩

def durationDefaulter : Defaulter := ⟨"defaultz.DurationDefaulter", [.int64], durationHandleField⟩

/-! ### The registry (defaultz.go) -/

structure DefaulterWithPriority where
  defaulter : Defaulter
  priority : Int

/-- sortDefaulters: stable sort by ascending priority (sort.SliceStable). -/
def sortDefaulters (dwps : List DefaulterWithPriority) : List DefaulterWithPriority :=
  List.insertionSort (fun a b => a.priority ≤ b.priority) dwps

/-- The registry: the configured extractor (an arbitrary DefaultExtractor
implementation, modelled as a function), the per-kind defaulter lists, and
the ignoreCannotSet flag. -/
structure DefaulterRegistry where
  extractor : Option (StructField → String × Bool × Option String)
  defaulters : List (Kind × List DefaulterWithPriority)
  ignoreCannotSet : Bool

def lookupDefaulters (l : List (Kind × List DefaulterWithPriority)) (k : Kind) :
    Option (List DefaulterWithPriority) :=
  match l.find? (fun p => p.1 == k) with
  | some p => some p.2
  | none => none

/-- Append a defaulter under one kind and re-sort that kind's sequence. -/
def registerKind : List (Kind × List DefaulterWithPriority) → Kind → DefaulterWithPriority →
    List (Kind × List DefaulterWithPriority)
  | [], k, dwp => [(k, sortDefaulters [dwp])]
  | (k', ds) :: rest, k, dwp =>
    if k' == k then (k', sortDefaulters (ds ++ [dwp])) :: rest
    else (k', ds) :: registerKind rest k dwp

/-- Register: add the defaulter under every kind it handles. -/
def register (r : DefaulterRegistry) (priority : Int) (d : Defaulter) : DefaulterRegistry :=
  { r with defaulters :=
      d.handledKinds.foldl (fun acc k => registerKind acc k ⟨d, priority⟩) r.defaulters }

def PriorityPrimitiveDefaulter : Int := 1000
def PriorityOtherDefaulter : Int := 2000

/-- WithBasicDefaulters.  The source also registers a FloatDefaulter at the
primitive tier; floating-point kinds are outside this embedding (see the
header), so that registration has no modelled counterpart.  DurationDefaulter
runs after IntDefaulter on int64 fields because of its larger priority. -/
def withBasicDefaulters (r : DefaulterRegistry) : DefaulterRegistry :=
  let r := register r PriorityPrimitiveDefaulter boolDefaulter
  let r := register r PriorityPrimitiveDefaulter intDefaulter
  let r := register r PriorityPrimitiveDefaulter uintDefaulter
  let r := register r PriorityPrimitiveDefaulter sliceDefaulter
  let r := register r PriorityPrimitiveDefaulter mapDefaulter
  let r := register r PriorityPrimitiveDefaulter stringDefaulter
  register r PriorityOtherDefaulter durationDefaulter

def withDefaultExtractor (ex : StructField → String × Bool × Option String)
    (r : DefaulterRegistry) : DefaulterRegistry :=
  { r with extractor := some ex }

def withIgnoreCannotSet (ignore : Bool) (r : DefaulterRegistry) : DefaulterRegistry :=
  { r with ignoreCannotSet := ignore }

/-- NewDefaulterRegistry: start empty, apply the options, then sort every
kind's defaulter list by priority. -/
def newDefaulterRegistry (options : List (DefaulterRegistry → DefaulterRegistry)) :
    DefaulterRegistry :=
  let r := options.foldl (fun r o => o r) ⟨none, [], false⟩
  { r with defaulters := r.defaulters.map (fun p => (p.1, sortDefaulters p.2)) }

/-- The package-level registry (the source's `instance`): basic defaulters
plus the canonical extractor configuration. -/
def instanceRegistry : DefaulterRegistry :=
  newDefaulterRegistry [withBasicDefaulters, withDefaultExtractor extractorInstance.extractDefault]

/-! ### Static cycle detection (cycles.go) -/

/-- detectPotentialCycles, structurally fuelled.  `seen` holds the struct
names on the current recursion path (only structs are ever marked in the Go
map, so names suffice); one pointer level is dereferenced before the check,
exactly as in the source. -/
def detectPotentialCyclesF (env : Env) : Nat → GoType → List String → Bool
  | 0, _, _ => false
  | fuel + 1, t, seen =>
    let t' := match t with | .ptr e => e | u => u
    match t' with
    | .structRef s =>
      if s ∈ seen then true
      else
        match lookupStruct env s with
        | none => false
        | some sd => sd.fields.any (fun f => detectPotentialCyclesF env fuel f.type (s :: seen))
    | _ => false

/-- detectPotentialCycles.  Each recursion level adds a distinct struct name
from the environment to `seen`, so `env.length + 1` levels always suffice
(lemma `detectPotentialCyclesF_fuel_sufficiency` area below). -/
def detectPotentialCycles (env : Env) (t : GoType) (seen : List String) : Bool :=
  detectPotentialCyclesF env (env.length + 1) t seen

/-- The struct a field (or the root type) refers to after dereferencing a
single pointer level, if any: the exact shape detectPotentialCycles descends
into.  A doubly wrapped pointer target yields none, matching the source's
single dereference. -/
def fieldRefName : GoType → Option String
  | .structRef s => some s
  | .ptr (.structRef s) => some s
  | _ => none

/-- The edge relation of the static type graph as the detector sees it:
struct `a` references struct `b` through one of its declared fields,
directly or through a single optional (pointer) wrapper. -/
def typeEdge (env : Env) (a b : String) : Prop :=
  ∃ sd, lookupStruct env a = some sd ∧ ∃ f ∈ sd.fields, fieldRefName f.type = some b

/-! ### The traversal engine (defaultz.go) -/

def addFieldToPath (path : String) (f : StructField) : String :=
  path ++ "." ++ f.name

/-- The per-field defaulter loop of DoApplyDefaults: run the chain in order,
collect every reported error, remember whether some defaulter set a value,
and stop as soon as a defaulter says not to call the next one.  Returns the
final field value, the somethingSet flag and the collected errors. -/
def chainLoop (value path : String) (f : StructField) :
    List DefaulterWithPriority → GoValue → Bool → List DError → GoValue × Bool × List DError
  | [], fv, somethingSet, result => (fv, somethingSet, result)
  | dwp :: rest, fv, somethingSet, result =>
    let r := dwp.defaulter.handleField value path f fv
    let callNext := r.1
    let set := r.2.1
    let err := r.2.2.1
    let fv' := r.2.2.2
    let result' := match err with | some e => result ++ [e] | none => result
    let somethingSet' := somethingSet || set
    if callNext then chainLoop value path f rest fv' somethingSet' result'
    else (fv', somethingSet', result')

/-- The engine's decision after the chain halts: if nothing was set and
errors were collected, fail — a single error is surfaced directly, several
as a multierror aggregate. -/
def chainErrorDecision (somethingSet : Bool) (result : List DError) : Option EngineErr :=
  match somethingSet, result with
  | false, [e] => some (.applySingle e)
  | false, e1 :: e2 :: rest => some (.applyMulti (e1 :: e2 :: rest))
  | _, _ => none

/-- Steps 2-8 of the walk for a non-struct, non-pointer-to-struct field:
skip non-zero values, consult the extractor (a failure is fatal, not-found
skips), reject pointer-to-pointer types, resolve the effective kind and its
defaulter chain (an absent chain is fatal), check settability, then run the
chain and apply the error decision. -/
def handleLeafField (reg : DefaulterRegistry) (f : StructField) (fv : GoValue) (path : String) :
    GoValue × Option EngineErr :=
  if isZero fv = false then (fv, none)
  else
    match reg.extractor with
    | none => (fv, none)
    | some ex =>
      match ex f with
      | (_, _, some msg) => (fv, some (.fieldErr ⟨none, .cannotExtractDefault, path, f.name, msg⟩))
      | (defaultStr, found, none) =>
        if found = false then (fv, none)
        else if f.type.kind = Kind.ptr && (typeElem f.type).kind = Kind.ptr then
          (fv, some (.fieldErr ⟨none, .notSupported, path, f.name,
            "pointer to pointer is not allowed"⟩))
        else
          let kind := if f.type.kind = Kind.ptr then (typeElem f.type).kind else f.type.kind
          match lookupDefaulters reg.defaulters kind with
          | none => (fv, some (.fieldErr ⟨none, .notSupported, path, f.name,
              "no defaulters found for kind"⟩))
          | some ds =>
            if f.canSet = false then
              if reg.ignoreCannotSet then (fv, none)
              else (fv, some (.fieldErr ⟨none, .cannotSetField, path, f.name, "cannot set field"⟩))
            else
              let r := chainLoop defaultStr path f ds fv false []
              (r.1, chainErrorDecision r.2.1 r.2.2)

/-- One field of the walk.  Struct fields are recursed into first; nil
pointers to structs are auto-vivified (reflect.New) and then recursed into;
everything else is a leaf field.  `go` is the engine's recursive call at the
current fuel, `mkZero` its zero-value constructor. -/
def handleOneFieldWith (reg : DefaulterRegistry)
    (go : GoType → GoValue → String → GoValue × Option EngineErr)
    (mkZero : GoType → GoValue)
    (f : StructField) (fv : GoValue) (path : String) : GoValue × Option EngineErr :=
  match f.type with
  | .structRef s => go (.structRef s) fv (addFieldToPath path f)
  | .ptr (.structRef s) =>
    let fv' : GoValue := match fv with
      | .ptr none => .ptr (some (mkZero (.structRef s)))
      | v => v
    match fv' with
    | .ptr (some inner) =>
      let r := go (.structRef s) inner (addFieldToPath path f)
      (.ptr (some r.1), r.2)
    | v => (v, none)
  | _ => handleLeafField reg f fv path

/-- The field loop of DoApplyDefaults: declared order, first fatal error
wins and unwinds immediately — fields already defaulted keep their values. -/
def walkFieldsWith (reg : DefaulterRegistry)
    (go : GoType → GoValue → String → GoValue × Option EngineErr)
    (mkZero : GoType → GoValue) :
    List StructField → List GoValue → String → List GoValue × Option EngineErr
  | _, [], _ => ([], none)
  | [], fvs, _ => (fvs, none)
  | f :: fs, fv :: fvs, path =>
    let r := handleOneFieldWith reg go mkZero f fv path
    match r.2 with
    | some e => (r.1 :: fvs, some e)
    | none =>
      let rest := walkFieldsWith reg go mkZero fs fvs path
      (r.1 :: rest.1, rest.2)

/-- DoApplyDefaults.  Checks that an extractor and defaulters are configured,
dereferences a single pointer level, returns silently on non-struct values,
and otherwise walks the fields.  The result is the (possibly partially)
updated value together with the first fatal error, if any; `outOfFuel`
models the divergence that cyclic type definitions would cause in Go. -/
def doApplyDefaults (reg : DefaulterRegistry) (env : Env) :
    Nat → GoType → GoValue → String → GoValue × Option EngineErr
  | 0, _, v, _ => (v, some .outOfFuel)
  | fuel + 1, ty, v, path =>
    if reg.extractor.isNone then (v, some .extractorNotSet)
    else if reg.defaulters.isEmpty then (v, some .noDefaulters)
    else
      match ty, v with
      | .ptr ety, .ptr (some inner) =>
        let r := doApplyDefaults reg env fuel ety inner path
        (.ptr (some r.1), r.2)
      | .structRef s, .struct fvs =>
        match lookupStruct env s with
        | some sd =>
          let r := walkFieldsWith reg (doApplyDefaults reg env fuel) (zeroValue env fuel)
            sd.fields fvs path
          (.struct r.1, r.2)
        | none => (v, none)
      | _, _ => (v, none)

/-- The root path: "<root>" for an anonymous struct type, otherwise the
package path and type name. -/
def rootPath (env : Env) (s : String) : String :=
  if s = "" then "<root>"
  else
    (match lookupStruct env s with
     | some sd => sd.pkgPath
     | none => "") ++ ".(" ++ s ++ ")"

/-- ApplyDefaults: the caller must hand over a non-nil pointer to a struct;
the cycle detector then runs once against the static type, before any
mutation; only then does the walk start. -/
def applyDefaults (reg : DefaulterRegistry) (env : Env) (fuel : Nat) (ty : GoType) (v : GoValue) :
    GoValue × Option EngineErr :=
  match ty, v with
  | .ptr (.structRef s), .ptr (some sv) =>
    if detectPotentialCycles env (.structRef s) [] then (v, some .cyclicType)
    else
      let r := doApplyDefaults reg env fuel (.structRef s) sv (rootPath env s)
      (.ptr (some r.1), r.2)
  | _, _ => (v, some .invalidInput)

/-! ### Specification-side definitions

These definitions follow the wording of spec sentences (not the source) and
exist to be compared against the source-derived definitions above. -/

/-- Claim-side description of one chain execution: the outcomes
(continueChain, wasSet, error) of the converters that actually ran — the
chain runs in order and halts at the first converter returning
continueChain = false, or at exhaustion — together with the field value the
chain leaves behind. -/
def specRun (value path : String) (f : StructField) :
    List DefaulterWithPriority → GoValue → List (Bool × Bool × Option DError) × GoValue
  | [], fv => ([], fv)
  | dwp :: rest, fv =>
    let r := dwp.defaulter.handleField value path f fv
    if r.1 then
      let q := specRun value path f rest r.2.2.2
      ((r.1, r.2.1, r.2.2.1) :: q.1, q.2)
    else ([(r.1, r.2.1, r.2.2.1)], r.2.2.2)

/-- Did some executed converter set a value? -/
def specAnySet (l : List (Bool × Bool × Option DError)) : Bool :=
  l.any (fun o => o.2.1)

/-- Every error the executed converters reported, in order. -/
def specCollectedErrors (l : List (Bool × Bool × Option DError)) : List DError :=
  l.filterMap (fun o => o.2.2)

/-- Claim-side failure rule: the field fails iff no executed converter set a
value and at least one error was collected; a single collected error is
surfaced directly, several as an aggregate. -/
def specFieldError (l : List (Bool × Bool × Option DError)) : Option EngineErr :=
  if specAnySet l then none
  else
    match specCollectedErrors l with
    | [] => none
    | [e] => some (.applySingle e)
    | es => some (.applyMulti es)

/-- Claim-side description of the extractor: read the tag, split the raw
value on the separator, whitespace-trim every token, and return the first
token carrying the marker (with the marker removed) as found; if no token
carries the marker, not found, with no error. -/
def specExtract (d : DefaultzExtractor) (field : StructField) : String × Bool × Option String :=
  match tagLookup field.tag d.tagName with
  | none => ("", false, none)
  | some tag =>
    let toks := (goSplit tag d.separator).map goTrimSpace
    match toks.find? (fun t => goHasPfx t d.pfx) with
    | some t => (goTrimPfx t d.pfx, true, none)
    | none => ("", false, none)

mutual
/-- Claim C1's mutation discipline, as a relation between a value before and
after the walk: a field holding the zero value may change arbitrarily (that
is where defaults may be applied); a non-zero struct field and a non-nil
pointer field are compared recursively (the walk descends into them); every
other non-zero field must be exactly unchanged. -/
def untouchedVal (a b : GoValue) : Bool :=
  if isZero a then true
  else
    match a, b with
    | .struct fas, .struct fbs => untouchedFields fas fbs
    | .ptr (some ia), .ptr (some ib) => untouchedVal ia ib
    | x, y => beqVal x y
def untouchedFields : List GoValue → List GoValue → Bool
  | [], [] => true
  | a :: as', b :: bs' => untouchedVal a b && untouchedFields as' bs'
  | _, _ => false
end

mutual
/-- Claim C1's hypothesis: every field, at every level of nesting reachable
by the walk (through struct fields and non-nil pointers), holds a non-zero
value. -/
def allFieldsNonZero : GoValue → Bool
  | .struct fs => allFieldsNonZeroList fs
  | .ptr (some v) => allFieldsNonZero v
  | _ => true
def allFieldsNonZeroList : List GoValue → Bool
  | [] => true
  | v :: vs => (!(isZero v) && allFieldsNonZero v) && allFieldsNonZeroList vs
end

/-! ### Well-behavedness of converters (used for idempotence)

Each built-in converter decides (continueChain, wasSet, error) from the raw
string and the field descriptor alone, and its write is either absent, a
pointer-aware store of a computed non-pointer value, or a wholesale
replacement by a computed non-pointer value.  These shapes are closed under
chaining and are what makes a second traversal reproduce the first. -/

/-- The three write shapes of the built-in converters. -/
inductive OutShape where
  | ident
  | ptrAware (w : GoValue)
  | const (w : GoValue)

def applyOut : OutShape → GoValue → GoValue
  | .ident, fv => fv
  | .ptrAware w, fv => setLeafPtrAware fv w
  | .const w, _ => w

def notPtr : GoValue → Bool
  | .ptr _ => false
  | _ => true

def shapeOk : OutShape → Bool
  | .ident => true
  | .ptrAware w => notPtr w
  | .const w => notPtr w

/-- Sequential composition of two write shapes (first s1, then s2). -/
def composeShape : OutShape → OutShape → OutShape
  | s1, .ident => s1
  | _, .const w => .const w
  | .ident, .ptrAware w => .ptrAware w
  | .ptrAware _, .ptrAware w => .ptrAware w
  | .const w1, .ptrAware w => .const (setLeafPtrAware w1 w)

/-- A converter is well behaved when, for fixed inputs, its decision triple
is independent of the current field value and its write has one of the three
shapes (with no write at all when wasSet is false). -/
def HandlerOk (h : Defaulter) : Prop :=
  ∀ value path f, ∃ cn st err sh,
    shapeOk sh = true ∧ (st = false → sh = OutShape.ident) ∧
    ∀ fv, h.handleField value path f fv = (cn, st, err, applyOut sh fv)

/-- Every converter reachable through the registry is well behaved. -/
def RegistryOk (reg : DefaulterRegistry) : Prop :=
  ∀ k ds, lookupDefaulters reg.defaulters k = some ds → ∀ dw ∈ ds, HandlerOk dw.defaulter

/-! ### Concrete data used by witnesses and counterexamples -/

/-- A struct whose type graph has a direct self-reference through a pointer. -/
def envSelfCycle : Env := [⟨"A", "p", [⟨"Self", .ptr (.structRef "A"), [], true⟩]⟩]

/-- A two-struct cycle A → B → A through a chain of nested record types and
an optional wrapper. -/
def envChainCycle : Env :=
  [⟨"CA", "p", [⟨"Child", .structRef "CB", [], true⟩]⟩,
   ⟨"CB", "p", [⟨"Parent", .ptr (.structRef "CA"), [], true⟩]⟩]

/-- A struct with a pointer-to-pointer field carrying a default tag. -/
def envPtrPtr : Env := [⟨"Q", "p", [⟨"F", .ptr (.ptr .int), [("default", "3")], true⟩]⟩]

/-- A non-zero value for envPtrPtr's record: the field already points at a
(nil) inner pointer, so its value is non-zero. -/
def vPtrPtrNonZero : GoValue := .ptr (some (.struct [.ptr (some (.ptr none))]))

/-- Sequence fields: one with spec "1 2 3", one with an empty tag value. -/
def envSlice : Env :=
  [⟨"S", "main",
    [⟨"F1", .slice .int, [("default", "1 2 3")], true⟩,
     ⟨"F2", .slice .int, [("default", "")], true⟩]⟩]

/-- Boolean field with spec "true". -/
def envBoolOk : Env := [⟨"B", "main", [⟨"F", .bool, [("default", "true")], true⟩]⟩]

/-- Boolean field with a malformed spec. -/
def envBoolBad : Env := [⟨"B", "main", [⟨"F", .bool, [("default", "xyz")], true⟩]⟩]

/-- A nested record type used by the C1/C3 witnesses. -/
def envNested : Env :=
  [⟨"P", "main", [⟨"Field1", .bool, [("default", "true")], true⟩,
                  ⟨"Child", .structRef "C", [], true⟩]⟩,
   ⟨"C", "main", [⟨"Field2", .int, [("default", "123")], true⟩]⟩]

/-- A fully non-zero value of envNested's root type. -/
def vNestedNonZero : GoValue := .struct [.bool true, .struct [.int 7]]

/-- The zero value of envNested's root type. -/
def vNestedZero : GoValue := .struct [.bool false, .struct [.int 0]]

/-- A field whose configured tag is present with the empty string value. -/
def fldEmptyTag : StructField := ⟨"F", .string, [("default", "")], true⟩

/-- A custom converter in the style of the test-suite's customDefaulter:
it decides the chain (continueChain = false) when it recognises the value. -/
def haltingDefaulter : Defaulter :=
  ⟨"test.customDefaulter", [.bool], fun value _ _ fv =>
    if value = "yay" then (false, true, none, .bool true) else (true, false, none, fv)⟩

/-- The field used by the chain-contract witness. -/
def fldBool : StructField := ⟨"F", .bool, [("default", "yay")], true⟩

/-- The number of environment struct names not yet on the recursion path:
the measure that bounds the cycle detector's recursion depth. -/
def unseenCount (env : Env) (seen : List String) : Nat :=
  ((env.map StructDef.name).filter (fun n => decide (n ∉ seen))).length

/-! ### Helper lemmas -/

theorem chainLoop_eq_specRun (value path : String) (f : StructField) :
    ∀ (ds : List DefaulterWithPriority) (fv : GoValue) (sInit : Bool) (acc : List DError),
      chainLoop value path f ds fv sInit acc =
        ((specRun value path f ds fv).2,
         sInit || specAnySet (specRun value path f ds fv).1,
         acc ++ specCollectedErrors (specRun value path f ds fv).1) := by
  intro ds
  induction ds with
  | nil =>
    intro fv sInit acc
    simp [chainLoop, specRun, specAnySet, specCollectedErrors]
  | cons d rest ih =>
    intro fv sInit acc
    simp only [chainLoop, specRun]
    rcases hr : d.defaulter.handleField value path f fv with ⟨cn, st, err, fv2⟩
    cases cn with
    | true =>
      cases err with
      | none =>
        simp [ih, specAnySet, specCollectedErrors, Bool.or_assoc]
      | some e =>
        simp [ih, specAnySet, specCollectedErrors, Bool.or_assoc]
    | false =>
      cases err with
      | none => simp [specAnySet, specCollectedErrors]
      | some e => simp [specAnySet, specCollectedErrors]

theorem chainErrorDecision_eq_rule (st : Bool) (errs : List DError) :
    chainErrorDecision st errs =
      (if st then none
       else match errs with
            | [] => none
            | [e] => some (.applySingle e)
            | es => some (.applyMulti es)) := by
  cases st with
  | false =>
    cases errs with
    | nil => rfl
    | cons e rest => cases rest <;> rfl
  | true =>
    cases errs with
    | nil => rfl
    | cons e rest => cases rest <;> rfl

theorem extractDefault_of_empty_tag (d : DefaultzExtractor) (field : StructField)
    (h : tagLookup field.tag d.tagName = some "") :
    DefaultzExtractor.extractDefault d field = ("", false, none) := by
  unfold DefaultzExtractor.extractDefault
  rw [h]
  rfl

theorem extractDefault_of_no_tag (d : DefaultzExtractor) (field : StructField)
    (h : tagLookup field.tag d.tagName = none) :
    DefaultzExtractor.extractDefault d field = ("", false, none) := by
  unfold DefaultzExtractor.extractDefault
  rw [h]

theorem firstTokenWithPfx_eq_find (p : String) (l : List String) :
    firstTokenWithPfx p l =
      ((l.map goTrimSpace).find? (fun t => goHasPfx t p)).map (fun t => goTrimPfx t p) := by
  induction l with
  | nil => rfl
  | cons a rest ih =>
    simp only [firstTokenWithPfx, List.map_cons, List.find?_cons]
    cases hsw : goHasPfx (goTrimSpace a) p with
    | true => simp [hsw]
    | false => simp [hsw, ih]

/-! ### Claim theorems -/

/-- C7: for a zero-valued sequence field of integer element kind with
default spec "1 2 3", applyDefaults sets the field to the ordered sequence
[1, 2, 3]; a field whose tag value is the empty string ends in the
collection's nil representation (the extractor reports not-found, matching
skip-if-not-found), not an allocated empty collection. -/
theorem slice_default_ordered_and_empty_nil :
    applyDefaults instanceRegistry envSlice 9 (.ptr (.structRef "S"))
        (.ptr (some (.struct [.slice none, .slice none]))) =
      (.ptr (some (.struct [.slice (some [.int 1, .int 2, .int 3]), .slice none])), none) ∧
    beqVal (GoValue.slice none) (GoValue.slice (some ([] : List GoValue))) = false :=
  ⟨rfl, rfl⟩

/-- C8: for a zero-valued boolean field with default spec "true",
applyDefaults sets the field to true; for a spec that is neither "true" nor
"false" it fails with InvalidDefaultValue, and the surfaced error carries
the offending field's path ("main.(B)" with field name "F"). -/
theorem bool_default_true_and_invalid_value_named_path :
    applyDefaults instanceRegistry envBoolOk 9 (.ptr (.structRef "B"))
        (.ptr (some (.struct [.bool false]))) =
      (.ptr (some (.struct [.bool true])), none) ∧
    applyDefaults instanceRegistry envBoolBad 9 (.ptr (.structRef "B"))
        (.ptr (some (.struct [.bool false]))) =
      (.ptr (some (.struct [.bool false])),
       some (.applySingle ⟨some "defaultz.BoolDefaulter", .invalidDefaultValue, "main.(B)", "F",
         "invalid boolean value (not 'true' nor 'false')"⟩)) :=
  ⟨rfl, rfl⟩

/-- C4: the engine's per-field converter loop, combined with its error
decision, refines the claim's chain contract: the converters of the chain
run in order up to the first continueChain = false (or exhaustion) — later
converters never influence the outcome — all reported errors are collected,
and the field fails iff no executed converter set a value and at least one
error was collected, one error being surfaced directly and several as an
aggregate; if any converter set a value, collected errors do not fail the
field. -/
theorem converter_chain_contract (value path : String) (f : StructField)
    (ds : List DefaulterWithPriority) (fv : GoValue) :
    (chainLoop value path f ds fv false []).1 = (specRun value path f ds fv).2 ∧
    (chainLoop value path f ds fv false []).2.1 = specAnySet (specRun value path f ds fv).1 ∧
    (chainLoop value path f ds fv false []).2.2 =
      specCollectedErrors (specRun value path f ds fv).1 ∧
    chainErrorDecision (chainLoop value path f ds fv false []).2.1
        (chainLoop value path f ds fv false []).2.2 =
      specFieldError (specRun value path f ds fv).1 ∧
    (∀ l, specFieldError l = none ↔ (specAnySet l = true ∨ specCollectedErrors l = [])) ∧
    (∀ (d : DefaulterWithPriority) (rest rest' : List DefaulterWithPriority),
       (d.defaulter.handleField value path f fv).1 = false →
       chainLoop value path f (d :: rest) fv false [] =
         chainLoop value path f (d :: rest') fv false []) := by
  have hmain := chainLoop_eq_specRun value path f ds fv false []
  refine ⟨by rw [hmain], by rw [hmain]; simp, by rw [hmain]; simp, ?_, ?_, ?_⟩
  · rw [hmain]
    simp only [Bool.false_or, List.nil_append]
    rw [chainErrorDecision_eq_rule]
    rfl
  · intro l
    unfold specFieldError
    cases h : specAnySet l with
    | true => simp
    | false =>
      cases he : specCollectedErrors l with
      | nil => simp
      | cons e rest => cases rest <;> simp
  · intro d rest rest' hhalt
    rcases hr : d.defaulter.handleField value path f fv with ⟨cn, st, err, fv2⟩
    rw [hr] at hhalt
    have hcn : cn = false := hhalt
    subst hcn
    simp [chainLoop, hr]

/-- Witness for C4: a custom converter that halts the chain makes the
outcome independent of the converters after it. -/
theorem converter_chain_contract_witness :
    chainLoop "yay" "p" fldBool [⟨haltingDefaulter, 1000⟩, ⟨boolDefaulter, 2000⟩]
        (.bool false) false [] =
      chainLoop "yay" "p" fldBool [⟨haltingDefaulter, 1000⟩] (.bool false) false [] :=
  (converter_chain_contract "yay" "p" fldBool
    [⟨haltingDefaulter, 1000⟩, ⟨boolDefaulter, 2000⟩] (.bool false)).2.2.2.2.2
    ⟨haltingDefaulter, 1000⟩ [⟨boolDefaulter, 2000⟩] [] rfl

/-- C9 counterexample: for a present tag whose raw value is the empty string
and an empty configured marker, the claim's split-trim-first-match rule
yields found = true with the empty spec, but ExtractDefault returns
found = false: the bundled extractor short-circuits on the empty tag value
before splitting. -/
theorem extractDefault_empty_tag_diverges_from_spec :
    DefaultzExtractor.extractDefault extractorInstance fldEmptyTag = ("", false, none) ∧
    specExtract extractorInstance fldEmptyTag = ("", true, none) :=
  ⟨rfl, rfl⟩

/-- C9 (amended): for every field tag read by the configured extractor whose
raw value is not the empty string, the raw value is split on the configured
separator, each token is whitespace-trimmed, and the first token carrying
the configured marker is returned (marker removed) with found = true; if no
token carries the marker, found = false with no error.  A present tag whose
whole value is empty is treated as absent (found = false) without splitting. -/
theorem extractDefault_matches_spec_unless_empty_tag (d : DefaultzExtractor)
    (field : StructField) (h : tagLookup field.tag d.tagName ≠ some "") :
    DefaultzExtractor.extractDefault d field = specExtract d field := by
  unfold DefaultzExtractor.extractDefault specExtract
  cases htag : tagLookup field.tag d.tagName with
  | none => rfl
  | some tag =>
    have hne : ¬(tag = "") := by
      intro he
      exact h (he ▸ htag)
    simp only [if_neg hne, firstTokenWithPfx_eq_find]
    cases hf : (((goSplit tag d.separator).map goTrimSpace).find? (fun t => goHasPfx t d.pfx)) with
    | none => simp [hf]
    | some t => simp [hf]

/-- Witness for C9's amended claim at a concrete tag. -/
theorem extractDefault_matches_spec_witness :
    DefaultzExtractor.extractDefault ⟨"customTag", "default=", ","⟩
        ⟨"X", .string, [("customTag", "title=foo,default=m n, name=x")], true⟩ =
      specExtract ⟨"customTag", "default=", ","⟩
        ⟨"X", .string, [("customTag", "title=foo,default=m n, name=x")], true⟩ :=
  extractDefault_matches_spec_unless_empty_tag _ _ (by decide)

/-- C10: a present tag whose value is the empty string makes the bundled
extractor report found = false with no error, exactly as an absent tag does;
consequently the walk skips such a field (no converter runs, no error, no
write), so an empty-string default value cannot be expressed through a whole
empty tag value. -/
theorem empty_tag_behaves_as_absent :
    (∀ (d : DefaultzExtractor) (field : StructField),
       tagLookup field.tag d.tagName = some "" →
       DefaultzExtractor.extractDefault d field = ("", false, none)) ∧
    (∀ (d : DefaultzExtractor) (field : StructField),
       tagLookup field.tag d.tagName = none →
       DefaultzExtractor.extractDefault d field = ("", false, none)) ∧
    (∀ (reg : DefaulterRegistry) (d : DefaultzExtractor) (f : StructField) (fv : GoValue)
       (path : String) (go : GoType → GoValue → String → GoValue × Option EngineErr)
       (mkZero : GoType → GoValue),
       reg.extractor = some d.extractDefault →
       tagLookup f.tag d.tagName = some "" →
       (∀ s, f.type ≠ .structRef s) →
       (∀ s, f.type ≠ .ptr (.structRef s)) →
       handleOneFieldWith reg go mkZero f fv path = (fv, none)) := by
  refine ⟨extractDefault_of_empty_tag, extractDefault_of_no_tag, ?_⟩
  intro reg d f fv path go mkZero hreg htag hns hnp
  have hleaf : handleLeafField reg f fv path = (fv, none) := by
    unfold handleLeafField
    cases hz : isZero fv with
    | false => simp
    | true =>
      rw [hreg]
      simp [extractDefault_of_empty_tag d f htag]
  unfold handleOneFieldWith
  cases hty : f.type with
  | structRef s => exact absurd hty (hns s)
  | ptr e =>
    cases e with
    | structRef s => exact absurd hty (hnp s)
    | bool => exact hleaf
    | int => exact hleaf
    | int8 => exact hleaf
    | int16 => exact hleaf
    | int32 => exact hleaf
    | int64 => exact hleaf
    | uint => exact hleaf
    | uint8 => exact hleaf
    | uint16 => exact hleaf
    | uint32 => exact hleaf
    | uint64 => exact hleaf
    | string => exact hleaf
    | slice e2 => exact hleaf
    | map k v => exact hleaf
    | ptr e2 => exact hleaf
  | bool => exact hleaf
  | int => exact hleaf
  | int8 => exact hleaf
  | int16 => exact hleaf
  | int32 => exact hleaf
  | int64 => exact hleaf
  | uint => exact hleaf
  | uint8 => exact hleaf
  | uint16 => exact hleaf
  | uint32 => exact hleaf
  | uint64 => exact hleaf
  | string => exact hleaf
  | slice e => exact hleaf
  | map k v => exact hleaf

/-- Witness for C10 at a concrete field with an empty tag value. -/
theorem empty_tag_behaves_as_absent_witness :
    DefaultzExtractor.extractDefault extractorInstance fldEmptyTag = ("", false, none) ∧
    handleOneFieldWith instanceRegistry (fun _ v _ => (v, none)) (fun _ => .bool false)
        fldEmptyTag (.str "") "p" = (.str "", none) := by
  refine ⟨empty_tag_behaves_as_absent.1 extractorInstance fldEmptyTag rfl, ?_⟩
  exact empty_tag_behaves_as_absent.2.2 instanceRegistry extractorInstance fldEmptyTag
    (.str "") "p" _ _ rfl rfl (fun s h => by cases h) (fun s h => by cases h)

/-- C5 counterexample: a pointer-to-pointer field whose current value is
non-zero is skipped by the zero-value check before the shape check ever
runs: applyDefaults succeeds and rejects nothing, so the rejection is not
independent of the field's current value. -/
theorem ptrptr_nonzero_field_not_rejected :
    applyDefaults instanceRegistry envPtrPtr 9 (.ptr (.structRef "Q")) vPtrPtrNonZero =
      (vPtrPtrNonZero, none) := rfl

/-- C5 (amended): a field whose declared type is an optional wrapping
another optional is rejected with NotSupported before any converter runs,
whenever its current value is the zero value and the extractor found a
default spec for it; the rejection then depends only on the declared type
(it happens for every registry and every converter set).  A field with a
non-zero current value (or without a default spec) is skipped instead. -/
theorem ptrptr_rejected_when_zero_and_found
    (reg : DefaulterRegistry) (ex : StructField → String × Bool × Option String)
    (f : StructField) (fv : GoValue) (path : String)
    (go : GoType → GoValue → String → GoValue × Option EngineErr) (mkZero : GoType → GoValue)
    (t : GoType) (str : String)
    (hty : f.type = .ptr (.ptr t))
    (hzero : isZero fv = true)
    (hreg : reg.extractor = some ex)
    (hfound : ex f = (str, true, none)) :
    handleOneFieldWith reg go mkZero f fv path =
      (fv, some (.fieldErr ⟨none, .notSupported, path, f.name,
        "pointer to pointer is not allowed"⟩)) := by
  unfold handleOneFieldWith
  rw [hty]
  unfold handleLeafField
  rw [hzero, hreg]
  simp [hfound, hty, GoType.kind, typeElem]

/-- Witness for C5's amended claim at a concrete zero-valued field. -/
theorem ptrptr_rejected_witness :
    handleOneFieldWith instanceRegistry (fun _ v _ => (v, none)) (fun _ => .bool false)
        ⟨"F", .ptr (.ptr .int), [("default", "3")], true⟩ (.ptr none) "p.(Q)" =
      (.ptr none, some (.fieldErr ⟨none, .notSupported, "p.(Q)", "F",
        "pointer to pointer is not allowed"⟩)) :=
  ptrptr_rejected_when_zero_and_found instanceRegistry extractorInstance.extractDefault
    _ _ _ _ _ .int "3" rfl rfl rfl rfl

/-! ### Cycle-detector lemmas -/

theorem filter_length_mono {α : Type} (p q : α → Bool)
    (h : ∀ x, q x = true → p x = true) (l : List α) :
    (l.filter q).length ≤ (l.filter p).length := by
  induction l with
  | nil => simp
  | cons a rest ih =>
    cases hq : q a with
    | true =>
      have hp := h a hq
      simp [hq, hp]
      omega
    | false =>
      cases hp : p a with
      | true => simp [hq, hp]; omega
      | false => simp [hq, hp]; omega

theorem filter_unseen_lt {l seen : List String} {s : String}
    (hs : s ∈ l) (hns : s ∉ seen) :
    (l.filter (fun n => decide (n ∉ s :: seen))).length <
      (l.filter (fun n => decide (n ∉ seen))).length := by
  have hmono : ∀ x, (decide (x ∉ s :: seen)) = true → (decide (x ∉ seen)) = true := by
    intro x hx
    simp only [decide_eq_true_eq, List.mem_cons] at hx ⊢
    exact fun hm => hx (Or.inr hm)
  induction l with
  | nil => cases hs
  | cons a rest ih =>
    rcases List.mem_cons.mp hs with heq | hmem
    · subst heq
      have e1 : List.filter (fun n => decide (n ∉ s :: seen)) (s :: rest) =
          List.filter (fun n => decide (n ∉ s :: seen)) rest := by
        rw [List.filter_cons]
        simp
      have e2 : List.filter (fun n => decide (n ∉ seen)) (s :: rest) =
          s :: List.filter (fun n => decide (n ∉ seen)) rest := by
        rw [List.filter_cons]
        simp [hns]
      rw [e1, e2, List.length_cons]
      exact Nat.lt_succ_of_le (filter_length_mono _ _ hmono rest)
    · cases hq : (decide (a ∉ s :: seen)) with
      | true =>
        have hp := hmono a hq
        have e1 : List.filter (fun n => decide (n ∉ s :: seen)) (a :: rest) =
            a :: List.filter (fun n => decide (n ∉ s :: seen)) rest := by
          rw [List.filter_cons, hq]
          simp
        have e2 : List.filter (fun n => decide (n ∉ seen)) (a :: rest) =
            a :: List.filter (fun n => decide (n ∉ seen)) rest := by
          rw [List.filter_cons, hp]
          simp
        rw [e1, e2, List.length_cons, List.length_cons]
        exact Nat.succ_lt_succ (ih hmem)
      | false =>
        have e1 : List.filter (fun n => decide (n ∉ s :: seen)) (a :: rest) =
            List.filter (fun n => decide (n ∉ s :: seen)) rest := by
          rw [List.filter_cons, hq]
          simp
        cases hp : (decide (a ∉ seen)) with
        | true =>
          have e2 : List.filter (fun n => decide (n ∉ seen)) (a :: rest) =
              a :: List.filter (fun n => decide (n ∉ seen)) rest := by
            rw [List.filter_cons, hp]
            simp
          rw [e1, e2, List.length_cons]
          exact Nat.lt_succ_of_lt (ih hmem)
        | false =>
          have e2 : List.filter (fun n => decide (n ∉ seen)) (a :: rest) =
              List.filter (fun n => decide (n ∉ seen)) rest := by
            rw [List.filter_cons, hp]
            simp
          rw [e1, e2]
          exact ih hmem

theorem unseenCount_cons_lt (env : Env) (s : String) (seen : List String)
    (hmem : s ∈ env.map StructDef.name) (hns : s ∉ seen) :
    unseenCount env (s :: seen) < unseenCount env seen :=
  filter_unseen_lt hmem hns

theorem unseenCount_le_length (env : Env) (seen : List String) :
    unseenCount env seen ≤ env.length := by
  unfold unseenCount
  calc ((env.map StructDef.name).filter _).length
      ≤ (env.map StructDef.name).length := List.length_filter_le _ _
    _ = env.length := List.length_map _ _

theorem lookupStruct_name_mem {env : Env} {s : String} {sd : StructDef}
    (h : lookupStruct env s = some sd) : s ∈ env.map StructDef.name := by
  have hmem := List.mem_of_find?_eq_some h
  have hname : sd.name = s := by
    have := List.find?_some h
    simpa using this
  exact hname ▸ List.mem_map_of_mem StructDef.name hmem

theorem detectF_deref (env : Env) (fuel : Nat) (t : GoType) (s : String) (seen : List String)
    (h : fieldRefName t = some s) :
    detectPotentialCyclesF env fuel t seen =
      detectPotentialCyclesF env fuel (.structRef s) seen := by
  cases fuel with
  | zero => rfl
  | succ k =>
    cases t with
    | structRef s' =>
      have : s' = s := by simpa [fieldRefName] using h
      rw [this]
    | ptr e =>
      cases e with
      | structRef s' =>
        have : s' = s := by simpa [fieldRefName] using h
        subst this
        rfl
      | _ => simp [fieldRefName] at h
    | _ => simp [fieldRefName] at h

theorem detectF_false_of_no_ref (env : Env) (fuel : Nat) (t : GoType) (seen : List String)
    (h : fieldRefName t = none) :
    detectPotentialCyclesF env fuel t seen = false := by
  cases fuel with
  | zero => rfl
  | succ k =>
    cases t with
    | structRef s => simp [fieldRefName] at h
    | ptr e => cases e with
      | structRef s => simp [fieldRefName] at h
      | _ => rfl
    | _ => rfl

theorem detectF_structRef_succ (env : Env) (fuel : Nat) (s : String) (seen : List String) :
    detectPotentialCyclesF env (fuel + 1) (.structRef s) seen =
      (if s ∈ seen then true
       else match lookupStruct env s with
            | none => false
            | some sd =>
              sd.fields.any (fun f => detectPotentialCyclesF env fuel f.type (s :: seen))) := rfl

theorem detectF_sound_aux (env : Env) :
    ∀ (fuel : Nat) (t : GoType) (seen : List String),
      detectPotentialCyclesF env fuel t seen = true →
      ∃ s, fieldRefName t = some s ∧
        ((∃ c, Relation.ReflTransGen (typeEdge env) s c ∧
            Relation.TransGen (typeEdge env) c c) ∨
         (∃ m, m ∈ seen ∧ Relation.ReflTransGen (typeEdge env) s m)) := by
  intro fuel
  induction fuel with
  | zero => intro t seen h; simp [detectPotentialCyclesF] at h
  | succ k ih =>
    intro t seen h
    cases hs : fieldRefName t with
    | none => rw [detectF_false_of_no_ref env _ t seen hs] at h; cases h
    | some s =>
      refine ⟨s, rfl, ?_⟩
      rw [detectF_deref env _ t s seen hs, detectF_structRef_succ] at h
      by_cases hmem : s ∈ seen
      · exact Or.inr ⟨s, hmem, Relation.ReflTransGen.refl⟩
      · rw [if_neg hmem] at h
        cases hlook : lookupStruct env s with
        | none => rw [hlook] at h; cases h
        | some sd =>
          rw [hlook] at h
          obtain ⟨f, hf, hdet⟩ := List.any_eq_true.mp h
          obtain ⟨m', href, hcase⟩ := ih f.type (s :: seen) hdet
          have hedge : typeEdge env s m' := ⟨sd, hlook, f, hf, href⟩
          rcases hcase with ⟨c, hrtg, htg⟩ | ⟨m, hm, hrtg⟩
          · exact Or.inl ⟨c, Relation.ReflTransGen.head hedge hrtg, htg⟩
          · rcases List.mem_cons.mp hm with heq | hmseen
            · exact Or.inl ⟨s, Relation.ReflTransGen.refl,
                Relation.TransGen.head' hedge (heq ▸ hrtg)⟩
            · exact Or.inr ⟨m, hmseen, Relation.ReflTransGen.head hedge hrtg⟩

theorem detectF_reaches_seen (env : Env) :
    ∀ (fuel : Nat) (m : String) (seen : List String) (x : String),
      x ∈ seen → Relation.ReflTransGen (typeEdge env) m x →
      unseenCount env seen < fuel →
      detectPotentialCyclesF env fuel (.structRef m) seen = true := by
  intro fuel
  induction fuel with
  | zero => intro m seen x _ _ hlt; omega
  | succ k ih =>
    intro m seen x hx hrtg hlt
    rw [detectF_structRef_succ]
    by_cases hmem : m ∈ seen
    · rw [if_pos hmem]
    · rw [if_neg hmem]
      have hne : m ≠ x := fun he => hmem (he ▸ hx)
      rcases Relation.ReflTransGen.cases_head hrtg with he | ⟨y, hedge, hyx⟩
      · exact absurd he hne
      · obtain ⟨sd, hlook, f, hf, href⟩ := hedge
        rw [hlook]
        have hlt2 : unseenCount env (m :: seen) < k := by
          have := unseenCount_cons_lt env m seen (lookupStruct_name_mem hlook) hmem
          omega
        apply List.any_eq_true.mpr
        refine ⟨f, hf, ?_⟩
        cases k with
        | zero => omega
        | succ k2 =>
          rw [detectF_deref env _ f.type y _ href]
          exact ih y (m :: seen) x (List.mem_cons_of_mem _ hx) hyx hlt2

theorem detectF_complete (env : Env) :
    ∀ (fuel : Nat) (n : String) (seen : List String),
      (∃ c, Relation.ReflTransGen (typeEdge env) n c ∧ Relation.TransGen (typeEdge env) c c) →
      unseenCount env seen < fuel →
      detectPotentialCyclesF env fuel (.structRef n) seen = true := by
  intro fuel
  induction fuel with
  | zero => intro n seen _ hlt; omega
  | succ k ih =>
    intro n seen hcyc hlt
    obtain ⟨c, hrtg, htg⟩ := hcyc
    rw [detectF_structRef_succ]
    by_cases hmem : n ∈ seen
    · rw [if_pos hmem]
    · rw [if_neg hmem]
      rcases Relation.ReflTransGen.cases_head hrtg with rfl | ⟨y, hedge, hyc⟩
      · obtain ⟨y, hedge, hyn⟩ := (Relation.TransGen.head'_iff).mp htg
        obtain ⟨sd, hlook, f, hf, href⟩ := hedge
        rw [hlook]
        have hlt2 : unseenCount env (n :: seen) < k := by
          have := unseenCount_cons_lt env n seen (lookupStruct_name_mem hlook) hmem
          omega
        apply List.any_eq_true.mpr
        refine ⟨f, hf, ?_⟩
        cases k with
        | zero => omega
        | succ k2 =>
          rw [detectF_deref env _ f.type y _ href]
          exact detectF_reaches_seen env _ y (n :: seen) n (List.mem_cons_self _ _) hyn hlt2
      · obtain ⟨sd, hlook, f, hf, href⟩ := hedge
        rw [hlook]
        have hlt2 : unseenCount env (n :: seen) < k := by
          have := unseenCount_cons_lt env n seen (lookupStruct_name_mem hlook) hmem
          omega
        apply List.any_eq_true.mpr
        refine ⟨f, hf, ?_⟩
        cases k with
        | zero => omega
        | succ k2 =>
          rw [detectF_deref env _ f.type y _ href]
          exact ih y (n :: seen) ⟨c, hyc, htg⟩ hlt2

/-- C6: the cycle detector reports a cycle only when a struct type actually
recurs along a single descent path of the static type graph: whenever it
returns true there is a struct reachable from the root that reaches itself
through field edges.  Contrapositively, two sibling fields of the same
nested record type with no back-reference along any path are never flagged:
the visiting set tracks only the current path (each type is unmarked on
exit), so an acyclic reachable graph always yields false. -/
theorem detect_true_implies_path_recurrence (env : Env) (t : GoType)
    (h : detectPotentialCycles env t [] = true) :
    ∃ s c, fieldRefName t = some s ∧
      Relation.ReflTransGen (typeEdge env) s c ∧ Relation.TransGen (typeEdge env) c c := by
  obtain ⟨s, href, hcase⟩ := detectF_sound_aux env (env.length + 1) t [] h
  rcases hcase with ⟨c, hrtg, htg⟩ | ⟨m, hm, _⟩
  · exact ⟨s, c, href, hrtg, htg⟩
  · cases hm

/-- Witness for C6: on a concrete two-struct cycle the detector fires, and
the theorem produces the recurring type. -/
theorem detect_true_implies_path_recurrence_witness :
    detectPotentialCycles envChainCycle (.structRef "CA") [] = true ∧
    ∃ s c, fieldRefName (GoType.structRef "CA") = some s ∧
      Relation.ReflTransGen (typeEdge envChainCycle) s c ∧
      Relation.TransGen (typeEdge envChainCycle) c c :=
  ⟨rfl, detect_true_implies_path_recurrence envChainCycle (.structRef "CA") rfl⟩

/-- C2: when the static type graph reachable from the record's type contains
a self-reference — a struct that reaches itself directly, through a chain of
nested record types, or through a single optional wrapper — ApplyDefaults
fails with the CyclicType error and returns the record exactly as it was: no
field is mutated, because the single cycle check runs against the static
type before the walk starts, for every registry and every fuel budget. -/
theorem applyDefaults_cyclic_fails_atomically
    (reg : DefaulterRegistry) (env : Env) (fuel : Nat) (s : String) (v : GoValue)
    (h : ∃ c, Relation.ReflTransGen (typeEdge env) s c ∧ Relation.TransGen (typeEdge env) c c) :
    applyDefaults reg env fuel (.ptr (.structRef s)) (.ptr (some v)) =
      (.ptr (some v), some .cyclicType) := by
  have hdet : detectPotentialCycles env (.structRef s) [] = true := by
    unfold detectPotentialCycles
    apply detectF_complete env _ s [] h
    have := unseenCount_le_length env []
    omega
  unfold applyDefaults
  simp [hdet]

/-- Witness for C2: a concrete self-referential record type fails with
CyclicType and keeps its value. -/
theorem applyDefaults_cyclic_witness :
    applyDefaults instanceRegistry envSelfCycle 9 (.ptr (.structRef "A"))
        (.ptr (some (.struct [.ptr none]))) =
      (.ptr (some (.struct [.ptr none])), some .cyclicType) :=
  applyDefaults_cyclic_fails_atomically instanceRegistry envSelfCycle 9 "A"
    (.struct [.ptr none])
    ⟨"A", Relation.ReflTransGen.refl,
      Relation.TransGen.single
        ⟨⟨"A", "p", [⟨"Self", .ptr (.structRef "A"), [], true⟩]⟩, rfl,
          ⟨"Self", .ptr (.structRef "A"), [], true⟩, by simp, rfl⟩⟩

/-! ### Value lemmas for the mutation discipline -/

mutual
theorem beqVal_refl : ∀ v, beqVal v v = true
  | .bool b => by simp [beqVal]
  | .int v => by simp [beqVal]
  | .uint v => by simp [beqVal]
  | .str s => by simp [beqVal]
  | .slice none => by simp [beqVal]
  | .slice (some l) => by simp [beqVal]; exact beqValList_refl l
  | .map none => by simp [beqVal]
  | .map (some es) => by simp [beqVal]; exact beqValPairs_refl es
  | .struct fs => by simp [beqVal]; exact beqValList_refl fs
  | .ptr none => by simp [beqVal]
  | .ptr (some v) => by simp [beqVal]; exact beqVal_refl v
theorem beqValList_refl : ∀ l, beqValList l l = true
  | [] => rfl
  | v :: vs => by
    simp only [beqValList, Bool.and_eq_true]
    exact ⟨beqVal_refl v, beqValList_refl vs⟩
theorem beqValPairs_refl : ∀ l, beqValPairs l l = true
  | [] => rfl
  | (k, v) :: rest => by
    simp only [beqValPairs, Bool.and_eq_true]
    exact ⟨⟨beqVal_refl k, beqVal_refl v⟩, beqValPairs_refl rest⟩
end

theorem untouchedVal_of_zero (a b : GoValue) (h : isZero a = true) :
    untouchedVal a b = true := by
  unfold untouchedVal
  rw [h]
  rfl

theorem untouchedVal_struct (fas fbs : List GoValue) (h : untouchedFields fas fbs = true) :
    untouchedVal (.struct fas) (.struct fbs) = true := by
  unfold untouchedVal
  cases hz : isZero (GoValue.struct fas) with
  | true => rfl
  | false => exact h

theorem untouchedVal_ptr_some (ia ib : GoValue) (h : untouchedVal ia ib = true) :
    untouchedVal (.ptr (some ia)) (.ptr (some ib)) = true := by
  unfold untouchedVal
  cases hz : isZero (GoValue.ptr (some ia)) with
  | true => rfl
  | false => exact h

mutual
theorem untouchedVal_refl : ∀ v, untouchedVal v v = true
  | .bool b => by
    unfold untouchedVal
    cases hz : isZero (GoValue.bool b) with
    | true => simp
    | false => simpa using beqVal_refl (GoValue.bool b)
  | .int n => by
    unfold untouchedVal
    cases hz : isZero (GoValue.int n) with
    | true => simp
    | false => simpa using beqVal_refl (GoValue.int n)
  | .uint n => by
    unfold untouchedVal
    cases hz : isZero (GoValue.uint n) with
    | true => simp
    | false => simpa using beqVal_refl (GoValue.uint n)
  | .str s => by
    unfold untouchedVal
    cases hz : isZero (GoValue.str s) with
    | true => simp
    | false => simpa using beqVal_refl (GoValue.str s)
  | .slice o => by
    unfold untouchedVal
    cases hz : isZero (GoValue.slice o) with
    | true => simp
    | false => simpa using beqVal_refl (GoValue.slice o)
  | .map o => by
    unfold untouchedVal
    cases hz : isZero (GoValue.map o) with
    | true => simp
    | false => simpa using beqVal_refl (GoValue.map o)
  | .struct fs => by
    unfold untouchedVal
    cases hz : isZero (GoValue.struct fs) with
    | true => simp
    | false => simpa using untouchedFields_refl fs
  | .ptr none => untouchedVal_of_zero _ _ rfl
  | .ptr (some iv) => by
    unfold untouchedVal
    cases hz : isZero (GoValue.ptr (some iv)) with
    | true => simp
    | false => simpa using untouchedVal_refl iv
theorem untouchedFields_refl : ∀ l, untouchedFields l l = true
  | [] => rfl
  | v :: vs => by
    simp only [untouchedFields, Bool.and_eq_true]
    exact ⟨untouchedVal_refl v, untouchedFields_refl vs⟩
end

theorem untouchedFields_cons (a b : GoValue) (as' bs' : List GoValue)
    (h1 : untouchedVal a b = true) (h2 : untouchedFields as' bs' = true) :
    untouchedFields (a :: as') (b :: bs') = true := by
  simp [untouchedFields]
  exact ⟨h1, h2⟩

theorem handleLeafField_skip_nonzero (reg : DefaulterRegistry) (f : StructField)
    (fv : GoValue) (path : String) (h : isZero fv = false) :
    handleLeafField reg f fv path = (fv, none) := by
  unfold handleLeafField
  rw [h]
  rfl

/-! ### The walk's mutation discipline (C1) -/

theorem doApplyDefaults_succ (reg : DefaulterRegistry) (env : Env) (k : Nat)
    (ty : GoType) (v : GoValue) (path : String)
    (hex : reg.extractor.isNone = false) (hds : reg.defaulters.isEmpty = false) :
    doApplyDefaults reg env (k + 1) ty v path =
      (match ty, v with
       | .ptr ety, .ptr (some inner) =>
         let r := doApplyDefaults reg env k ety inner path
         ((.ptr (some r.1) : GoValue), r.2)
       | .structRef s, .struct fvs =>
         (match lookupStruct env s with
          | some sd =>
            let r := walkFieldsWith reg (doApplyDefaults reg env k) (zeroValue env k)
              sd.fields fvs path
            ((.struct r.1 : GoValue), r.2)
          | none => (v, none))
       | _, _ => (v, none)) := by
  conv_lhs => unfold doApplyDefaults
  rw [hex, hds]
  simp only [Bool.false_eq_true, if_false]

theorem doApply_succ_ptr (reg : DefaulterRegistry) (env : Env) (k : Nat)
    (ety : GoType) (inner : GoValue) (path : String)
    (hex : reg.extractor.isNone = false) (hds : reg.defaulters.isEmpty = false) :
    doApplyDefaults reg env (k + 1) (.ptr ety) (.ptr (some inner)) path =
      ((.ptr (some (doApplyDefaults reg env k ety inner path).1) : GoValue),
       (doApplyDefaults reg env k ety inner path).2) := by
  rw [doApplyDefaults_succ reg env k _ _ path hex hds]

theorem doApply_succ_struct (reg : DefaulterRegistry) (env : Env) (k : Nat)
    (s : String) (fvs : List GoValue) (path : String) (sd : StructDef)
    (hex : reg.extractor.isNone = false) (hds : reg.defaulters.isEmpty = false)
    (hlook : lookupStruct env s = some sd) :
    doApplyDefaults reg env (k + 1) (.structRef s) (.struct fvs) path =
      ((.struct (walkFieldsWith reg (doApplyDefaults reg env k) (zeroValue env k)
          sd.fields fvs path).1 : GoValue),
       (walkFieldsWith reg (doApplyDefaults reg env k) (zeroValue env k)
          sd.fields fvs path).2) := by
  rw [doApplyDefaults_succ reg env k _ _ path hex hds]
  simp [hlook]

theorem doApply_succ_other (reg : DefaulterRegistry) (env : Env) (k : Nat)
    (ty : GoType) (v : GoValue) (path : String)
    (hex : reg.extractor.isNone = false) (hds : reg.defaulters.isEmpty = false)
    (h1 : ∀ ety inner, ty = .ptr ety → v ≠ .ptr (some inner))
    (h2 : ∀ s fvs, ty = .structRef s → v ≠ .struct fvs) :
    doApplyDefaults reg env (k + 1) ty v path = (v, none) := by
  rw [doApplyDefaults_succ reg env k _ _ path hex hds]
  cases ty with
  | ptr ety =>
    cases v with
    | ptr o =>
      cases o with
      | some inner => exact absurd rfl (h1 ety inner rfl)
      | none => rfl
    | _ => rfl
  | structRef s =>
    cases v with
    | struct fvs => exact absurd rfl (h2 s fvs rfl)
    | _ => rfl
  | _ => cases v <;> rfl

theorem handleLeaf_untouched (reg : DefaulterRegistry) (f : StructField) (fv : GoValue)
    (path : String) :
    untouchedVal fv (handleLeafField reg f fv path).1 = true := by
  cases hz : isZero fv with
  | true => exact untouchedVal_of_zero _ _ hz
  | false =>
    rw [handleLeafField_skip_nonzero reg f fv path hz]
    exact untouchedVal_refl fv

theorem doApply_untouched (reg : DefaulterRegistry) (env : Env) :
    ∀ (fuel : Nat) (ty : GoType) (v : GoValue) (path : String),
      untouchedVal v (doApplyDefaults reg env fuel ty v path).1 = true := by
  intro fuel
  induction fuel with
  | zero => intro ty v path; exact untouchedVal_refl v
  | succ k ih =>
    have hone : ∀ (f : StructField) (fv : GoValue) (path : String),
        untouchedVal fv (handleOneFieldWith reg (doApplyDefaults reg env k)
          (zeroValue env k) f fv path).1 = true := by
      intro f fv path
      simp only [handleOneFieldWith]
      cases hft : f.type with
      | structRef s => exact ih (.structRef s) fv _
      | ptr e =>
        cases e with
        | structRef s =>
          cases fv with
          | ptr o =>
            cases o with
            | none => exact untouchedVal_of_zero _ _ rfl
            | some inner => exact untouchedVal_ptr_some _ _ (ih (.structRef s) inner _)
          | bool b => exact untouchedVal_refl _
          | int n => exact untouchedVal_refl _
          | uint n => exact untouchedVal_refl _
          | str s2 => exact untouchedVal_refl _
          | slice o => exact untouchedVal_refl _
          | map o => exact untouchedVal_refl _
          | struct fs => exact untouchedVal_refl _
        | bool => exact handleLeaf_untouched reg f fv path
        | int => exact handleLeaf_untouched reg f fv path
        | int8 => exact handleLeaf_untouched reg f fv path
        | int16 => exact handleLeaf_untouched reg f fv path
        | int32 => exact handleLeaf_untouched reg f fv path
        | int64 => exact handleLeaf_untouched reg f fv path
        | uint => exact handleLeaf_untouched reg f fv path
        | uint8 => exact handleLeaf_untouched reg f fv path
        | uint16 => exact handleLeaf_untouched reg f fv path
        | uint32 => exact handleLeaf_untouched reg f fv path
        | uint64 => exact handleLeaf_untouched reg f fv path
        | string => exact handleLeaf_untouched reg f fv path
        | slice e2 => exact handleLeaf_untouched reg f fv path
        | map k2 v2 => exact handleLeaf_untouched reg f fv path
        | ptr e2 => exact handleLeaf_untouched reg f fv path
      | bool => exact handleLeaf_untouched reg f fv path
      | int => exact handleLeaf_untouched reg f fv path
      | int8 => exact handleLeaf_untouched reg f fv path
      | int16 => exact handleLeaf_untouched reg f fv path
      | int32 => exact handleLeaf_untouched reg f fv path
      | int64 => exact handleLeaf_untouched reg f fv path
      | uint => exact handleLeaf_untouched reg f fv path
      | uint8 => exact handleLeaf_untouched reg f fv path
      | uint16 => exact handleLeaf_untouched reg f fv path
      | uint32 => exact handleLeaf_untouched reg f fv path
      | uint64 => exact handleLeaf_untouched reg f fv path
      | string => exact handleLeaf_untouched reg f fv path
      | slice e => exact handleLeaf_untouched reg f fv path
      | map k2 v2 => exact handleLeaf_untouched reg f fv path
    have hwalk : ∀ (flds : List StructField) (fvs : List GoValue) (path : String),
        untouchedFields fvs (walkFieldsWith reg (doApplyDefaults reg env k)
          (zeroValue env k) flds fvs path).1 = true := by
      intro flds
      induction flds with
      | nil =>
        intro fvs path
        cases fvs with
        | nil => rfl
        | cons fv fvs2 => exact untouchedFields_refl _
      | cons f fs ihw =>
        intro fvs path
        cases fvs with
        | nil => rfl
        | cons fv fvs2 =>
          simp only [walkFieldsWith]
          cases hr : (handleOneFieldWith reg (doApplyDefaults reg env k)
              (zeroValue env k) f fv path).2 with
          | some e =>
            exact untouchedFields_cons _ _ _ _ (hone f fv path) (untouchedFields_refl fvs2)
          | none =>
            exact untouchedFields_cons _ _ _ _ (hone f fv path) (ihw fvs2 path)
    intro ty v path
    by_cases hex : reg.extractor.isNone = true
    · unfold doApplyDefaults
      rw [if_pos hex]
      exact untouchedVal_refl v
    · have hex' : reg.extractor.isNone = false := by
        cases h2 : reg.extractor.isNone with
        | false => rfl
        | true => exact absurd h2 hex
      by_cases hds : reg.defaulters.isEmpty = true
      · unfold doApplyDefaults
        rw [hex']
        simp only [Bool.false_eq_true, if_false]
        rw [if_pos hds]
        exact untouchedVal_refl v
      · have hds' : reg.defaulters.isEmpty = false := by
          cases h2 : reg.defaulters.isEmpty with
          | false => rfl
          | true => exact absurd h2 hds
        cases ty with
        | ptr ety =>
          cases v with
          | ptr o =>
            cases o with
            | some inner =>
              rw [doApply_succ_ptr reg env k ety inner path hex' hds']
              exact untouchedVal_ptr_some _ _ (ih ety inner path)
            | none =>
              rw [doApply_succ_other reg env k _ _ path hex' hds'
                (fun ety2 inner2 _ h => by cases h) (fun s2 fvs2 h => by cases h)]
              exact untouchedVal_refl _
          | _ =>
            rw [doApplyDefaults_succ reg env k _ _ path hex' hds']
            simp [untouchedVal_refl]
        | structRef s =>
          cases v with
          | struct fvs =>
            cases hlook : lookupStruct env s with
            | some sd =>
              rw [doApply_succ_struct reg env k s fvs path sd hex' hds' hlook]
              exact untouchedVal_struct _ _ (hwalk sd.fields fvs path)
            | none =>
              rw [doApplyDefaults_succ reg env k _ _ path hex' hds']
              simp [hlook, untouchedVal_refl]
          | _ =>
            rw [doApplyDefaults_succ reg env k _ _ path hex' hds']
            simp [untouchedVal_refl]
        | _ =>
          rw [doApplyDefaults_succ reg env k _ _ path hex' hds']
          simp [untouchedVal_refl]

theorem doApply_noop_or_fuel (reg : DefaulterRegistry) (env : Env)
    (hex : reg.extractor.isNone = false) (hds : reg.defaulters.isEmpty = false) :
    ∀ (fuel : Nat) (ty : GoType) (v : GoValue) (path : String),
      allFieldsNonZero v = true →
      (doApplyDefaults reg env fuel ty v path = (v, none) ∨
       doApplyDefaults reg env fuel ty v path = (v, some .outOfFuel)) := by
  intro fuel
  induction fuel with
  | zero => intro ty v path _; exact Or.inr rfl
  | succ k ih =>
    have hone : ∀ (f : StructField) (fv : GoValue) (path : String),
        isZero fv = false → allFieldsNonZero fv = true →
        (handleOneFieldWith reg (doApplyDefaults reg env k) (zeroValue env k) f fv path =
          (fv, none) ∨
         handleOneFieldWith reg (doApplyDefaults reg env k) (zeroValue env k) f fv path =
          (fv, some .outOfFuel)) := by
      intro f fv path hz hnz
      simp only [handleOneFieldWith]
      cases hft : f.type with
      | structRef s => exact ih (.structRef s) fv _ hnz
      | ptr e =>
        cases e with
        | structRef s =>
          cases fv with
          | ptr o =>
            cases o with
            | none => exact absurd hz (by decide)
            | some inner =>
              dsimp only
              rcases ih (.structRef s) inner (addFieldToPath path f) hnz with h | h
              · left
                rw [h]
              · right
                rw [h]
          | _ => exact Or.inl rfl
        | _ => exact Or.inl (handleLeafField_skip_nonzero reg f fv path hz)
      | _ => exact Or.inl (handleLeafField_skip_nonzero reg f fv path hz)
    have hwalk : ∀ (flds : List StructField) (fvs : List GoValue) (path : String),
        allFieldsNonZeroList fvs = true →
        (walkFieldsWith reg (doApplyDefaults reg env k) (zeroValue env k) flds fvs path =
          (fvs, none) ∨
         walkFieldsWith reg (doApplyDefaults reg env k) (zeroValue env k) flds fvs path =
          (fvs, some .outOfFuel)) := by
      intro flds
      induction flds with
      | nil =>
        intro fvs path _
        cases fvs with
        | nil => exact Or.inl rfl
        | cons fv fvs2 => exact Or.inl rfl
      | cons f fs ihw =>
        intro fvs path hnz
        cases fvs with
        | nil => exact Or.inl rfl
        | cons fv fvs2 =>
          have hz : isZero fv = false := by
            cases h2 : isZero fv with
            | false => rfl
            | true => simp [allFieldsNonZeroList, h2] at hnz
          have hnzf : allFieldsNonZero fv = true := by
            simp only [allFieldsNonZeroList, Bool.and_eq_true] at hnz
            exact hnz.1.2
          have hrest : allFieldsNonZeroList fvs2 = true := by
            simp only [allFieldsNonZeroList, Bool.and_eq_true] at hnz
            exact hnz.2
          rcases hone f fv path hz hnzf with h | h
          · rcases ihw fvs2 path hrest with h2 | h2
            · left
              simp only [walkFieldsWith]
              rw [h, h2]
            · right
              simp only [walkFieldsWith]
              rw [h, h2]
          · right
            simp only [walkFieldsWith]
            rw [h]
    intro ty v path hnz
    cases ty with
    | ptr ety =>
      cases v with
      | ptr o =>
        cases o with
        | some inner =>
          rcases ih ety inner path hnz with h | h
          · left
            rw [doApply_succ_ptr reg env k ety inner path hex hds, h]
          · right
            rw [doApply_succ_ptr reg env k ety inner path hex hds, h]
        | none =>
          left
          rw [doApply_succ_other reg env k _ _ path hex hds
            (fun ety2 inner2 _ hv => by cases hv) (fun s2 fvs2 hty => by cases hty)]
      | _ =>
        left
        rw [doApply_succ_other reg env k _ _ path hex hds
          (fun ety2 inner2 _ hv => by cases hv) (fun s2 fvs2 hty => by cases hty)]
    | structRef s =>
      cases v with
      | struct fvs =>
        cases hlook : lookupStruct env s with
        | some sd =>
          rcases hwalk sd.fields fvs path hnz with h | h
          · left
            rw [doApply_succ_struct reg env k s fvs path sd hex hds hlook, h]
          · right
            rw [doApply_succ_struct reg env k s fvs path sd hex hds hlook, h]
        | none =>
          left
          rw [doApplyDefaults_succ reg env k _ _ path hex hds]
          simp [hlook]
      | _ =>
        left
        rw [doApply_succ_other reg env k _ _ path hex hds
          (fun ety2 inner2 hty => by cases hty) (fun s2 fvs2 _ hv => by cases hv)]
    | _ =>
      left
      rw [doApply_succ_other reg env k _ _ path hex hds
        (fun ety2 inner2 hty => by cases hty) (fun s2 fvs2 hty => by cases hty)]

/-- C1: the walk never writes a non-struct field whose current value is
non-zero — a default is only ever applied to a field currently holding its
type's zero value, at every level of nesting (first conjunct, with the
discipline expressed by untouchedVal); and on a record in which every field
already holds a non-zero value, DoApplyDefaults changes nothing and returns
success, for every registry with an extractor and defaulters configured and
every terminating run (second conjunct). -/
theorem nonzero_fields_never_overwritten :
    (∀ (reg : DefaulterRegistry) (env : Env) (fuel : Nat) (ty : GoType) (v : GoValue)
       (path : String),
       untouchedVal v (doApplyDefaults reg env fuel ty v path).1 = true) ∧
    (∀ (reg : DefaulterRegistry) (env : Env) (fuel : Nat) (ty : GoType) (v : GoValue)
       (path : String),
       reg.extractor.isNone = false →
       reg.defaulters.isEmpty = false →
       allFieldsNonZero v = true →
       (doApplyDefaults reg env fuel ty v path).2 ≠ some EngineErr.outOfFuel →
       doApplyDefaults reg env fuel ty v path = (v, none)) := by
  constructor
  · exact fun reg env fuel ty v path => doApply_untouched reg env fuel ty v path
  · intro reg env fuel ty v path hex hds hnz hnf
    rcases doApply_noop_or_fuel reg env hex hds fuel ty v path hnz with h | h
    · exact h
    · rw [h] at hnf
      simp at hnf

/-- Witness for C1 on a concrete nested record whose fields are all
non-zero: the walk leaves it untouched and succeeds. -/
theorem nonzero_fields_never_overwritten_witness :
    untouchedVal vNestedNonZero
      (doApplyDefaults instanceRegistry envNested 9 (.structRef "P") vNestedNonZero
        "main.(P)").1 = true ∧
    doApplyDefaults instanceRegistry envNested 9 (.structRef "P") vNestedNonZero "main.(P)" =
      (vNestedNonZero, none) :=
  ⟨nonzero_fields_never_overwritten.1 instanceRegistry envNested 9 (.structRef "P")
      vNestedNonZero "main.(P)",
   nonzero_fields_never_overwritten.2 instanceRegistry envNested 9 (.structRef "P")
      vNestedNonZero "main.(P)" rfl rfl rfl (fun h => Option.noConfusion h)⟩

/-! ### Well-behavedness of the built-in converters -/

theorem setLeafPtrAware_twice (fv w1 w2 : GoValue) (h : notPtr w1 = true) :
    setLeafPtrAware (setLeafPtrAware fv w1) w2 = setLeafPtrAware fv w2 := by
  cases fv with
  | ptr o => rfl
  | bool b => cases w1 with
    | ptr o2 => simp [notPtr] at h
    | _ => rfl
  | int n => cases w1 with
    | ptr o2 => simp [notPtr] at h
    | _ => rfl
  | uint n => cases w1 with
    | ptr o2 => simp [notPtr] at h
    | _ => rfl
  | str s => cases w1 with
    | ptr o2 => simp [notPtr] at h
    | _ => rfl
  | slice o => cases w1 with
    | ptr o2 => simp [notPtr] at h
    | _ => rfl
  | map o => cases w1 with
    | ptr o2 => simp [notPtr] at h
    | _ => rfl
  | struct fs => cases w1 with
    | ptr o2 => simp [notPtr] at h
    | _ => rfl

theorem applyOut_compose (s1 s2 : OutShape) (fv : GoValue) (h : shapeOk s1 = true) :
    applyOut (composeShape s1 s2) fv = applyOut s2 (applyOut s1 fv) := by
  cases s2 with
  | ident => cases s1 <;> rfl
  | const w => cases s1 <;> rfl
  | ptrAware w =>
    cases s1 with
    | ident => rfl
    | ptrAware w1 => exact (setLeafPtrAware_twice fv w1 w h).symm
    | const w1 => rfl

theorem shapeOk_compose (s1 s2 : OutShape) (h1 : shapeOk s1 = true) (h2 : shapeOk s2 = true) :
    shapeOk (composeShape s1 s2) = true := by
  cases s2 with
  | ident => cases s1 <;> exact h1
  | const w => cases s1 <;> exact h2
  | ptrAware w =>
    cases s1 with
    | ident => exact h2
    | ptrAware w1 => exact h2
    | const w1 =>
      show notPtr (setLeafPtrAware w1 w) = true
      cases w1 with
      | ptr o => simp [shapeOk, notPtr] at h1
      | _ => exact h2

theorem applyOut_fixpoint (sh : OutShape) (fv : GoValue) (h : shapeOk sh = true)
    (hz : isZero (applyOut sh fv) = true) :
    applyOut sh (applyOut sh fv) = applyOut sh fv := by
  cases sh with
  | ident => rfl
  | const w => rfl
  | ptrAware w =>
    cases fv with
    | ptr o => simp [applyOut, setLeafPtrAware, isZero] at hz
    | bool b =>
      cases w with
      | ptr o2 => simp [shapeOk, notPtr] at h
      | _ => rfl
    | int n =>
      cases w with
      | ptr o2 => simp [shapeOk, notPtr] at h
      | _ => rfl
    | uint n =>
      cases w with
      | ptr o2 => simp [shapeOk, notPtr] at h
      | _ => rfl
    | str s =>
      cases w with
      | ptr o2 => simp [shapeOk, notPtr] at h
      | _ => rfl
    | slice o =>
      cases w with
      | ptr o2 => simp [shapeOk, notPtr] at h
      | _ => rfl
    | map o =>
      cases w with
      | ptr o2 => simp [shapeOk, notPtr] at h
      | _ => rfl
    | struct fs =>
      cases w with
      | ptr o2 => simp [shapeOk, notPtr] at h
      | _ => rfl

theorem boolDefaulter_ok : HandlerOk boolDefaulter := by
  intro value path f
  by_cases h1 : value = "true"
  · refine ⟨true, true, none, .ptrAware (.bool true), rfl, fun h => Bool.noConfusion h,
      fun fv => ?_⟩
    simp [boolDefaulter, boolHandleField, h1, applyOut]
  · by_cases h2 : value = "false"
    · refine ⟨true, true, none, .ptrAware (.bool false), rfl, fun h => Bool.noConfusion h,
        fun fv => ?_⟩
      simp [boolDefaulter, boolHandleField, h1, h2, applyOut]
    · refine ⟨true, false,
        some ⟨some "defaultz.BoolDefaulter", .invalidDefaultValue, path, f.name,
          "invalid boolean value (not 'true' nor 'false')"⟩, .ident, rfl, fun _ => rfl,
        fun fv => ?_⟩
      simp [boolDefaulter, boolHandleField, h1, h2, applyOut]

theorem intDefaulter_ok : HandlerOk intDefaulter := by
  intro value path f
  cases hb : intBits (if f.type.kind = Kind.ptr then (typeElem f.type).kind else f.type.kind) with
  | none =>
    refine ⟨true, false, none, .ident, rfl, fun _ => rfl, fun fv => ?_⟩
    simp [intDefaulter, intHandleField, hb, applyOut]
  | some bits =>
    cases hp : goParseInt value bits with
    | error e =>
      refine ⟨true, false,
        some ⟨some "defaultz.IntDefaulter", .invalidDefaultValue, path, f.name,
          "strconv.ParseInt: " ++ e⟩, .ident, rfl, fun _ => rfl, fun fv => ?_⟩
      simp [intDefaulter, intHandleField, hb, hp, applyOut]
    | ok n =>
      refine ⟨true, true, none, .ptrAware (.int n), rfl, fun h => Bool.noConfusion h,
        fun fv => ?_⟩
      simp [intDefaulter, intHandleField, hb, hp, applyOut]

theorem uintDefaulter_ok : HandlerOk uintDefaulter := by
  intro value path f
  cases hb : uintBits (if f.type.kind = Kind.ptr then (typeElem f.type).kind else f.type.kind) with
  | none =>
    refine ⟨true, false, none, .ident, rfl, fun _ => rfl, fun fv => ?_⟩
    simp [uintDefaulter, uintHandleField, hb, applyOut]
  | some bits =>
    cases hp : goParseUint value bits with
    | error e =>
      refine ⟨true, false,
        some ⟨some "defaultz.UintDefaulter", .invalidDefaultValue, path, f.name,
          "strconv.ParseUint: " ++ e⟩, .ident, rfl, fun _ => rfl, fun fv => ?_⟩
      simp [uintDefaulter, uintHandleField, hb, hp, applyOut]
    | ok n =>
      refine ⟨true, true, none, .ptrAware (.uint n), rfl, fun h => Bool.noConfusion h,
        fun fv => ?_⟩
      simp [uintDefaulter, uintHandleField, hb, hp, applyOut]

theorem stringDefaulter_ok : HandlerOk stringDefaulter := by
  intro value path f
  refine ⟨true, true, none, .ptrAware (.str value), rfl, fun h => Bool.noConfusion h,
    fun fv => ?_⟩
  simp [stringDefaulter, stringHandleField, applyOut]

theorem sliceDefaulter_ok : HandlerOk sliceDefaulter := by
  intro value path f
  cases hc : convertParts (goFields value) (typeElem f.type) with
  | error e =>
    refine ⟨true, false,
      some ⟨some "defaultz.SliceDefaulter", .invalidDefaultValueItem, path, f.name, e⟩,
      .ident, rfl, fun _ => rfl, fun fv => ?_⟩
    simp [sliceDefaulter, sliceHandleField, hc, applyOut]
  | ok elems =>
    refine ⟨true, true, none, .const (.slice (some elems)), rfl, fun h => Bool.noConfusion h,
      fun fv => ?_⟩
    simp [sliceDefaulter, sliceHandleField, hc, applyOut]

theorem mapDefaulter_ok : HandlerOk mapDefaulter := by
  intro value path f
  cases hc : convertPairs (goFields value) (typeKey f.type) (typeElem f.type) [] with
  | error pe =>
    refine ⟨true, false,
      some ⟨some "defaultz.MapDefaulter",
        if pe.1 then .invalidDefaultValueKey else .invalidDefaultValueItem,
        path, f.name, pe.2⟩,
      .ident, rfl, fun _ => rfl, fun fv => ?_⟩
    rcases pe with ⟨isKey, msg⟩
    simp [mapDefaulter, mapHandleField, hc, applyOut]
  | ok entries =>
    refine ⟨true, true, none, .const (.map (some entries)), rfl, fun h => Bool.noConfusion h,
      fun fv => ?_⟩
    simp [mapDefaulter, mapHandleField, hc, applyOut]

theorem durationDefaulter_ok : HandlerOk durationDefaulter := by
  intro value path f
  cases hp : goParseDuration value with
  | error e =>
    refine ⟨true, false,
      some ⟨some "defaultz.DurationDefaulter", .invalidDefaultValue, path, f.name,
        "invalid duration value: " ++ e⟩, .ident, rfl, fun _ => rfl, fun fv => ?_⟩
    simp [durationDefaulter, durationHandleField, hp, applyOut]
  | ok d =>
    refine ⟨true, true, none, .ptrAware (.int d), rfl, fun h => Bool.noConfusion h,
      fun fv => ?_⟩
    simp [durationDefaulter, durationHandleField, hp, applyOut]

theorem instanceRegistry_defaulters_eq :
    instanceRegistry.defaulters =
      [(Kind.bool, [⟨boolDefaulter, 1000⟩]),
       (Kind.int, [⟨intDefaulter, 1000⟩]),
       (Kind.int8, [⟨intDefaulter, 1000⟩]),
       (Kind.int16, [⟨intDefaulter, 1000⟩]),
       (Kind.int32, [⟨intDefaulter, 1000⟩]),
       (Kind.int64, [⟨intDefaulter, 1000⟩, ⟨durationDefaulter, 2000⟩]),
       (Kind.uint, [⟨uintDefaulter, 1000⟩]),
       (Kind.uint8, [⟨uintDefaulter, 1000⟩]),
       (Kind.uint16, [⟨uintDefaulter, 1000⟩]),
       (Kind.uint32, [⟨uintDefaulter, 1000⟩]),
       (Kind.uint64, [⟨uintDefaulter, 1000⟩]),
       (Kind.slice, [⟨sliceDefaulter, 1000⟩]),
       (Kind.map, [⟨mapDefaulter, 1000⟩]),
       (Kind.string, [⟨stringDefaulter, 1000⟩])] := rfl

theorem registryOk_instance : RegistryOk instanceRegistry := by
  intro k ds hlook dw hdw
  rw [instanceRegistry_defaulters_eq] at hlook
  cases k with
  | bool =>
    injection hlook with h
    subst h
    rcases List.mem_singleton.mp hdw with rfl
    exact boolDefaulter_ok
  | int =>
    injection hlook with h
    subst h
    rcases List.mem_singleton.mp hdw with rfl
    exact intDefaulter_ok
  | int8 =>
    injection hlook with h
    subst h
    rcases List.mem_singleton.mp hdw with rfl
    exact intDefaulter_ok
  | int16 =>
    injection hlook with h
    subst h
    rcases List.mem_singleton.mp hdw with rfl
    exact intDefaulter_ok
  | int32 =>
    injection hlook with h
    subst h
    rcases List.mem_singleton.mp hdw with rfl
    exact intDefaulter_ok
  | int64 =>
    injection hlook with h
    subst h
    rcases List.mem_cons.mp hdw with rfl | hdw2
    · exact intDefaulter_ok
    · rcases List.mem_singleton.mp hdw2 with rfl
      exact durationDefaulter_ok
  | uint =>
    injection hlook with h
    subst h
    rcases List.mem_singleton.mp hdw with rfl
    exact uintDefaulter_ok
  | uint8 =>
    injection hlook with h
    subst h
    rcases List.mem_singleton.mp hdw with rfl
    exact uintDefaulter_ok
  | uint16 =>
    injection hlook with h
    subst h
    rcases List.mem_singleton.mp hdw with rfl
    exact uintDefaulter_ok
  | uint32 =>
    injection hlook with h
    subst h
    rcases List.mem_singleton.mp hdw with rfl
    exact uintDefaulter_ok
  | uint64 =>
    injection hlook with h
    subst h
    rcases List.mem_singleton.mp hdw with rfl
    exact uintDefaulter_ok
  | slice =>
    injection hlook with h
    subst h
    rcases List.mem_singleton.mp hdw with rfl
    exact sliceDefaulter_ok
  | map =>
    injection hlook with h
    subst h
    rcases List.mem_singleton.mp hdw with rfl
    exact mapDefaulter_ok
  | string =>
    injection hlook with h
    subst h
    rcases List.mem_singleton.mp hdw with rfl
    exact stringDefaulter_ok
  | struct => exact Option.noConfusion hlook
  | ptr => exact Option.noConfusion hlook

theorem chainErrorDecision_true_eq (errs : List DError) : chainErrorDecision true errs = none := by
  cases errs with
  | nil => rfl
  | cons e rest => cases rest <;> rfl

/-- A chain of well-behaved converters is itself well behaved: fixed decision
data and a single write shape, independent of the incoming field value. -/
theorem chainLoop_shape (value path : String) (f : StructField) :
    ∀ (ds : List DefaulterWithPriority),
      (∀ dw ∈ ds, HandlerOk dw.defaulter) →
      ∃ SH ST ERRS, shapeOk SH = true ∧ (ST = false → SH = OutShape.ident) ∧
        ∀ (fv : GoValue) (sInit : Bool) (acc : List DError),
          chainLoop value path f ds fv sInit acc =
            (applyOut SH fv, sInit || ST, acc ++ ERRS) := by
  intro ds
  induction ds with
  | nil =>
    intro _
    exact ⟨.ident, false, [], rfl, fun _ => rfl,
      fun fv sInit acc => by simp [chainLoop, applyOut]⟩
  | cons d rest ih =>
    intro hok
    obtain ⟨cn, st, err, sh, hsh, hstsh, hh⟩ := hok d (List.mem_cons_self d rest) value path f
    obtain ⟨SH2, ST2, ERRS2, hsh2, hstsh2, hrest⟩ :=
      ih (fun dw hdw => hok dw (List.mem_cons_of_mem d hdw))
    cases cn with
    | false =>
      refine ⟨sh, st, err.toList, hsh, hstsh, fun fv sInit acc => ?_⟩
      simp only [chainLoop, hh fv]
      cases err <;> simp
    | true =>
      refine ⟨composeShape sh SH2, st || ST2, err.toList ++ ERRS2,
        shapeOk_compose sh SH2 hsh hsh2, ?_, fun fv sInit acc => ?_⟩
      · intro hfalse
        have h1 : st = false := by
          cases st with
          | false => rfl
          | true => exact absurd hfalse (by simp)
        have h2 : ST2 = false := by
          cases ST2 with
          | false => rfl
          | true => exact absurd hfalse (by simp [h1])
        rw [hstsh h1, hstsh2 h2]
        rfl
      · simp only [chainLoop, hh fv]
        cases err with
        | none =>
          simp only [Option.toList]
          rw [hrest (applyOut sh fv) (sInit || st) acc]
          rw [applyOut_compose sh SH2 fv hsh, Bool.or_assoc]
          simp
        | some e =>
          simp only [Option.toList]
          rw [hrest (applyOut sh fv) (sInit || st) (acc ++ [e])]
          rw [applyOut_compose sh SH2 fv hsh, Bool.or_assoc, List.append_assoc]
          simp

/-- On a zero-valued settable field with a found default spec, a supported
kind and a registered chain, handleLeafField is exactly the chain run plus
the error decision. -/
theorem handleLeafField_chain_eq (reg : DefaulterRegistry) (f : StructField) (fv : GoValue)
    (path str : String) (ex : StructField → String × Bool × Option String)
    (ds : List DefaulterWithPriority)
    (hz : isZero fv = true)
    (hext : reg.extractor = some ex)
    (hexf : ex f = (str, true, none))
    (hpp : (f.type.kind = Kind.ptr && (typeElem f.type).kind = Kind.ptr : Bool) = false)
    (hlook : lookupDefaulters reg.defaulters
        (if f.type.kind = Kind.ptr then (typeElem f.type).kind else f.type.kind) = some ds)
    (hcs : f.canSet = true) :
    handleLeafField reg f fv path =
      ((chainLoop str path f ds fv false []).1,
       chainErrorDecision (chainLoop str path f ds fv false []).2.1
         (chainLoop str path f ds fv false []).2.2) := by
  unfold handleLeafField
  rw [hz]
  rw [if_neg (fun hc : true = false => Bool.noConfusion hc)]
  rw [hext]
  dsimp only
  rw [hexf]
  dsimp only
  rw [if_neg (fun hc : true = false => Bool.noConfusion hc)]
  rw [hpp]
  rw [if_neg (fun hc : false = true => Bool.noConfusion hc)]
  rw [hlook]
  dsimp only
  rw [hcs]
  rw [if_neg (fun hc : true = false => Bool.noConfusion hc)]

/-- Stability of the leaf-field step: running it again on its own output
reproduces the output, for a registry whose converters are well behaved. -/
theorem handleLeaf_stable (reg : DefaulterRegistry) (hok : RegistryOk reg)
    (f : StructField) (fv : GoValue) (path : String) (fv1 : GoValue) (r1 : Option EngineErr)
    (h : handleLeafField reg f fv path = (fv1, r1)) :
    handleLeafField reg f fv1 path = (fv1, r1) := by
  have h0 := h
  cases hz : isZero fv with
  | false =>
    rw [handleLeafField_skip_nonzero reg f fv path hz] at h
    injection h with h1 h2
    subst h1
    subst h2
    exact h0
  | true =>
    unfold handleLeafField at h
    rw [hz] at h
    rw [if_neg (fun hc : true = false => Bool.noConfusion hc)] at h
    cases hext : reg.extractor with
    | none =>
      rw [hext] at h
      injection h with h1 h2
      subst h1
      subst h2
      exact h0
    | some ex =>
      rw [hext] at h
      dsimp only at h
      rcases hexf : ex f with ⟨str, found, exErr⟩
      rw [hexf] at h
      cases exErr with
      | some msg =>
        injection h with h1 h2
        subst h1
        subst h2
        exact h0
      | none =>
        cases found with
        | false =>
          injection h with h1 h2
          subst h1
          subst h2
          exact h0
        | true =>
          dsimp only at h
          rw [if_neg (fun hc : true = false => Bool.noConfusion hc)] at h
          cases hpp : (f.type.kind = Kind.ptr && (typeElem f.type).kind = Kind.ptr : Bool) with
          | true =>
            rw [hpp] at h
            injection h with h1 h2
            subst h1
            subst h2
            exact h0
          | false =>
            rw [hpp] at h
            rw [if_neg (fun hc : false = true => Bool.noConfusion hc)] at h
            cases hlook : lookupDefaulters reg.defaulters
                (if f.type.kind = Kind.ptr then (typeElem f.type).kind else f.type.kind) with
            | none =>
              rw [hlook] at h
              injection h with h1 h2
              subst h1
              subst h2
              exact h0
            | some ds =>
              rw [hlook] at h
              dsimp only at h
              cases hcs : f.canSet with
              | false =>
                rw [hcs] at h
                rw [if_pos rfl] at h
                cases hic : reg.ignoreCannotSet with
                | true =>
                  rw [hic] at h
                  injection h with h1 h2
                  subst h1
                  subst h2
                  exact h0
                | false =>
                  rw [hic] at h
                  injection h with h1 h2
                  subst h1
                  subst h2
                  exact h0
              | true =>
                rw [hcs] at h
                rw [if_neg (fun hc : true = false => Bool.noConfusion hc)] at h
                obtain ⟨SH, ST, ERRS, hSH, hSTSH, hrun⟩ :=
                  chainLoop_shape str path f ds (hok _ ds hlook)
                rw [hrun fv false []] at h
                simp only [Bool.false_or, List.nil_append] at h
                injection h with h1 h2
                subst h1
                subst h2
                cases hz1 : isZero (applyOut SH fv) with
                | false =>
                  have hr1 : chainErrorDecision ST ERRS = none := by
                    cases ST with
                    | true => exact chainErrorDecision_true_eq ERRS
                    | false =>
                      cases ERRS with
                      | nil => rfl
                      | cons e es =>
                        exfalso
                        have hid := hSTSH rfl
                        rw [hid] at hz1
                        simp only [applyOut] at hz1
                        rw [hz] at hz1
                        exact Bool.noConfusion hz1
                  rw [hr1]
                  exact handleLeafField_skip_nonzero reg f (applyOut SH fv) path hz1
                | true =>
                  rw [handleLeafField_chain_eq reg f (applyOut SH fv) path str ex ds hz1 hext
                    hexf hpp hlook hcs]
                  rw [hrun (applyOut SH fv) false []]
                  simp only [Bool.false_or, List.nil_append]
                  rw [applyOut_fixpoint SH fv hSH hz1]

/-- Stability of the whole traversal: re-running the engine on its own
output value reproduces exactly that value and the same result. -/
theorem doApply_stable (reg : DefaulterRegistry) (env : Env) (hok : RegistryOk reg) :
    ∀ (fuel : Nat) (ty : GoType) (v : GoValue) (path : String) (v1 : GoValue)
      (r1 : Option EngineErr),
      doApplyDefaults reg env fuel ty v path = (v1, r1) →
      doApplyDefaults reg env fuel ty v1 path = (v1, r1) := by
  intro fuel
  induction fuel with
  | zero =>
    intro ty v path v1 r1 h
    injection h with h1 h2
    subst h1
    subst h2
    rfl
  | succ k ih =>
    intro ty v path v1 r1 h
    cases hex : reg.extractor.isNone with
    | true =>
      unfold doApplyDefaults at h ⊢
      rw [hex] at h ⊢
      rw [if_pos rfl] at h ⊢
      injection h with h1 h2
      subst h1
      subst h2
      rfl
    | false =>
      cases hds : reg.defaulters.isEmpty with
      | true =>
        unfold doApplyDefaults at h ⊢
        rw [hex, hds] at h ⊢
        rw [if_neg (fun hc : false = true => Bool.noConfusion hc)] at h ⊢
        rw [if_pos rfl] at h ⊢
        injection h with h1 h2
        subst h1
        subst h2
        rfl
      | false =>
        have hone : ∀ (f : StructField) (fv : GoValue) (path : String) (fv1 : GoValue)
            (rr : Option EngineErr),
            handleOneFieldWith reg (doApplyDefaults reg env k) (zeroValue env k)
              f fv path = (fv1, rr) →
            handleOneFieldWith reg (doApplyDefaults reg env k) (zeroValue env k)
              f fv1 path = (fv1, rr) := by
          intro f fv path fv1 rr h
          simp only [handleOneFieldWith] at h ⊢
          cases hft : f.type with
          | structRef s =>
            rw [hft] at h
            exact ih _ fv _ _ _ h
          | ptr e =>
            rw [hft] at h
            cases e with
            | structRef s =>
              cases fv with
              | ptr o =>
                cases o with
                | none =>
                  dsimp only at h
                  rcases hgo : doApplyDefaults reg env k (.structRef s)
                      (zeroValue env k (.structRef s)) (addFieldToPath path f) with ⟨w1, rr2⟩
                  rw [hgo] at h
                  injection h with h1 h2
                  subst h1
                  subst h2
                  dsimp only
                  rw [ih _ _ _ _ _ hgo]
                | some inner =>
                  dsimp only at h
                  rcases hgo : doApplyDefaults reg env k (.structRef s) inner
                      (addFieldToPath path f) with ⟨w1, rr2⟩
                  rw [hgo] at h
                  injection h with h1 h2
                  subst h1
                  subst h2
                  dsimp only
                  rw [ih _ _ _ _ _ hgo]
              | bool b =>
                injection h with h1 h2
                subst h1
                subst h2
                rfl
              | int n =>
                injection h with h1 h2
                subst h1
                subst h2
                rfl
              | uint n =>
                injection h with h1 h2
                subst h1
                subst h2
                rfl
              | str s2 =>
                injection h with h1 h2
                subst h1
                subst h2
                rfl
              | slice o =>
                injection h with h1 h2
                subst h1
                subst h2
                rfl
              | map o =>
                injection h with h1 h2
                subst h1
                subst h2
                rfl
              | struct fs2 =>
                injection h with h1 h2
                subst h1
                subst h2
                rfl
            | bool =>
              exact handleLeaf_stable reg hok f fv path fv1 rr h
            | int =>
              exact handleLeaf_stable reg hok f fv path fv1 rr h
            | int8 =>
              exact handleLeaf_stable reg hok f fv path fv1 rr h
            | int16 =>
              exact handleLeaf_stable reg hok f fv path fv1 rr h
            | int32 =>
              exact handleLeaf_stable reg hok f fv path fv1 rr h
            | int64 =>
              exact handleLeaf_stable reg hok f fv path fv1 rr h
            | uint =>
              exact handleLeaf_stable reg hok f fv path fv1 rr h
            | uint8 =>
              exact handleLeaf_stable reg hok f fv path fv1 rr h
            | uint16 =>
              exact handleLeaf_stable reg hok f fv path fv1 rr h
            | uint32 =>
              exact handleLeaf_stable reg hok f fv path fv1 rr h
            | uint64 =>
              exact handleLeaf_stable reg hok f fv path fv1 rr h
            | string =>
              exact handleLeaf_stable reg hok f fv path fv1 rr h
            | slice e2 =>
              exact handleLeaf_stable reg hok f fv path fv1 rr h
            | map ke ve =>
              exact handleLeaf_stable reg hok f fv path fv1 rr h
            | ptr e2 =>
              exact handleLeaf_stable reg hok f fv path fv1 rr h
          | bool =>
              rw [hft] at h
              exact handleLeaf_stable reg hok f fv path fv1 rr h
          | int =>
              rw [hft] at h
              exact handleLeaf_stable reg hok f fv path fv1 rr h
          | int8 =>
              rw [hft] at h
              exact handleLeaf_stable reg hok f fv path fv1 rr h
          | int16 =>
              rw [hft] at h
              exact handleLeaf_stable reg hok f fv path fv1 rr h
          | int32 =>
              rw [hft] at h
              exact handleLeaf_stable reg hok f fv path fv1 rr h
          | int64 =>
              rw [hft] at h
              exact handleLeaf_stable reg hok f fv path fv1 rr h
          | uint =>
              rw [hft] at h
              exact handleLeaf_stable reg hok f fv path fv1 rr h
          | uint8 =>
              rw [hft] at h
              exact handleLeaf_stable reg hok f fv path fv1 rr h
          | uint16 =>
              rw [hft] at h
              exact handleLeaf_stable reg hok f fv path fv1 rr h
          | uint32 =>
              rw [hft] at h
              exact handleLeaf_stable reg hok f fv path fv1 rr h
          | uint64 =>
              rw [hft] at h
              exact handleLeaf_stable reg hok f fv path fv1 rr h
          | string =>
              rw [hft] at h
              exact handleLeaf_stable reg hok f fv path fv1 rr h
          | slice e =>
              rw [hft] at h
              exact handleLeaf_stable reg hok f fv path fv1 rr h
          | map ke ve =>
              rw [hft] at h
              exact handleLeaf_stable reg hok f fv path fv1 rr h
        have hwalk : ∀ (flds : List StructField) (fvs : List GoValue) (path : String)
            (fvs1 : List GoValue) (rr : Option EngineErr),
            walkFieldsWith reg (doApplyDefaults reg env k) (zeroValue env k)
              flds fvs path = (fvs1, rr) →
            walkFieldsWith reg (doApplyDefaults reg env k) (zeroValue env k)
              flds fvs1 path = (fvs1, rr) := by
          intro flds
          induction flds with
          | nil =>
            intro fvs path fvs1 rr h
            cases fvs with
            | nil =>
              injection h with h1 h2
              subst h1
              subst h2
              rfl
            | cons fv fvs2 =>
              injection h with h1 h2
              subst h1
              subst h2
              rfl
          | cons f fs ihw =>
            intro fvs path fvs1 rr h
            cases fvs with
            | nil =>
              injection h with h1 h2
              subst h1
              subst h2
              rfl
            | cons fv fvs2 =>
              simp only [walkFieldsWith] at h
              rcases hr : handleOneFieldWith reg (doApplyDefaults reg env k) (zeroValue env k)
                  f fv path with ⟨fvA, rrA⟩
              rw [hr] at h
              cases rrA with
              | some e =>
                dsimp only at h
                injection h with h1 h2
                subst h1
                subst h2
                simp only [walkFieldsWith]
                rw [hone f fv path fvA (some e) hr]
              | none =>
                dsimp only at h
                rcases hrest : walkFieldsWith reg (doApplyDefaults reg env k) (zeroValue env k)
                    fs fvs2 path with ⟨fvsB, rrB⟩
                rw [hrest] at h
                injection h with h1 h2
                subst h1
                subst h2
                simp only [walkFieldsWith]
                rw [hone f fv path fvA none hr]
                dsimp only
                rw [ihw fvs2 path fvsB rrB hrest]
        cases ty with
        | ptr ety =>
          cases v with
          | ptr o =>
            cases o with
            | some inner =>
              rw [doApply_succ_ptr reg env k ety inner path hex hds] at h
              rcases hgo : doApplyDefaults reg env k ety inner path with ⟨w1, rr2⟩
              rw [hgo] at h
              injection h with h1 h2
              subst h1
              subst h2
              rw [doApply_succ_ptr reg env k ety w1 path hex hds]
              rw [ih _ _ _ _ _ hgo]
            | none =>
              rw [doApply_succ_other reg env k _ _ path hex hds
                (fun ety2 inner2 _ hv => by cases hv)
                (fun s fvs hv => by cases hv)] at h
              injection h with h1 h2
              subst h1
              subst h2
              exact doApply_succ_other reg env k _ _ path hex hds
                (fun ety2 inner2 _ hv => by cases hv)
                (fun s fvs hv => by cases hv)
          | bool b =>
            rw [doApply_succ_other reg env k _ _ path hex hds
              (fun ety2 inner2 _ hv => by cases hv)
              (fun s fvs hv => by cases hv)] at h
            injection h with h1 h2
            subst h1
            subst h2
            exact doApply_succ_other reg env k _ _ path hex hds
              (fun ety2 inner2 _ hv => by cases hv)
              (fun s fvs hv => by cases hv)
          | int n =>
            rw [doApply_succ_other reg env k _ _ path hex hds
              (fun ety2 inner2 _ hv => by cases hv)
              (fun s fvs hv => by cases hv)] at h
            injection h with h1 h2
            subst h1
            subst h2
            exact doApply_succ_other reg env k _ _ path hex hds
              (fun ety2 inner2 _ hv => by cases hv)
              (fun s fvs hv => by cases hv)
          | uint n =>
            rw [doApply_succ_other reg env k _ _ path hex hds
              (fun ety2 inner2 _ hv => by cases hv)
              (fun s fvs hv => by cases hv)] at h
            injection h with h1 h2
            subst h1
            subst h2
            exact doApply_succ_other reg env k _ _ path hex hds
              (fun ety2 inner2 _ hv => by cases hv)
              (fun s fvs hv => by cases hv)
          | str s2 =>
            rw [doApply_succ_other reg env k _ _ path hex hds
              (fun ety2 inner2 _ hv => by cases hv)
              (fun s fvs hv => by cases hv)] at h
            injection h with h1 h2
            subst h1
            subst h2
            exact doApply_succ_other reg env k _ _ path hex hds
              (fun ety2 inner2 _ hv => by cases hv)
              (fun s fvs hv => by cases hv)
          | slice o =>
            rw [doApply_succ_other reg env k _ _ path hex hds
              (fun ety2 inner2 _ hv => by cases hv)
              (fun s fvs hv => by cases hv)] at h
            injection h with h1 h2
            subst h1
            subst h2
            exact doApply_succ_other reg env k _ _ path hex hds
              (fun ety2 inner2 _ hv => by cases hv)
              (fun s fvs hv => by cases hv)
          | map o =>
            rw [doApply_succ_other reg env k _ _ path hex hds
              (fun ety2 inner2 _ hv => by cases hv)
              (fun s fvs hv => by cases hv)] at h
            injection h with h1 h2
            subst h1
            subst h2
            exact doApply_succ_other reg env k _ _ path hex hds
              (fun ety2 inner2 _ hv => by cases hv)
              (fun s fvs hv => by cases hv)
          | struct fs2 =>
            rw [doApply_succ_other reg env k _ _ path hex hds
              (fun ety2 inner2 _ hv => by cases hv)
              (fun s fvs hv => by cases hv)] at h
            injection h with h1 h2
            subst h1
            subst h2
            exact doApply_succ_other reg env k _ _ path hex hds
              (fun ety2 inner2 _ hv => by cases hv)
              (fun s fvs hv => by cases hv)
        | structRef s =>
          cases v with
          | struct fvs =>
            cases hlook : lookupStruct env s with
            | some sd =>
              rw [doApply_succ_struct reg env k s fvs path sd hex hds hlook] at h
              rcases hw : walkFieldsWith reg (doApplyDefaults reg env k) (zeroValue env k)
                  sd.fields fvs path with ⟨fvs1, rr2⟩
              rw [hw] at h
              injection h with h1 h2
              subst h1
              subst h2
              rw [doApply_succ_struct reg env k s fvs1 path sd hex hds hlook]
              rw [hwalk sd.fields fvs path fvs1 rr2 hw]
            | none =>
              rw [doApplyDefaults_succ reg env k _ _ path hex hds] at h
              dsimp only at h
              rw [hlook] at h
              dsimp only at h
              injection h with h1 h2
              subst h1
              subst h2
              rw [doApplyDefaults_succ reg env k _ _ path hex hds]
              dsimp only
              rw [hlook]
          | bool b =>
            rw [doApply_succ_other reg env k _ _ path hex hds
              (fun ety2 inner2 hv => by cases hv)
              (fun s2 fvs hv hw => by cases hw)] at h
            injection h with h1 h2
            subst h1
            subst h2
            exact doApply_succ_other reg env k _ _ path hex hds
              (fun ety2 inner2 hv => by cases hv)
              (fun s2 fvs hv hw => by cases hw)
          | int n =>
            rw [doApply_succ_other reg env k _ _ path hex hds
              (fun ety2 inner2 hv => by cases hv)
              (fun s2 fvs hv hw => by cases hw)] at h
            injection h with h1 h2
            subst h1
            subst h2
            exact doApply_succ_other reg env k _ _ path hex hds
              (fun ety2 inner2 hv => by cases hv)
              (fun s2 fvs hv hw => by cases hw)
          | uint n =>
            rw [doApply_succ_other reg env k _ _ path hex hds
              (fun ety2 inner2 hv => by cases hv)
              (fun s2 fvs hv hw => by cases hw)] at h
            injection h with h1 h2
            subst h1
            subst h2
            exact doApply_succ_other reg env k _ _ path hex hds
              (fun ety2 inner2 hv => by cases hv)
              (fun s2 fvs hv hw => by cases hw)
          | str s2 =>
            rw [doApply_succ_other reg env k _ _ path hex hds
              (fun ety2 inner2 hv => by cases hv)
              (fun s3 fvs hv hw => by cases hw)] at h
            injection h with h1 h2
            subst h1
            subst h2
            exact doApply_succ_other reg env k _ _ path hex hds
              (fun ety2 inner2 hv => by cases hv)
              (fun s3 fvs hv hw => by cases hw)
          | slice o =>
            rw [doApply_succ_other reg env k _ _ path hex hds
              (fun ety2 inner2 hv => by cases hv)
              (fun s2 fvs hv hw => by cases hw)] at h
            injection h with h1 h2
            subst h1
            subst h2
            exact doApply_succ_other reg env k _ _ path hex hds
              (fun ety2 inner2 hv => by cases hv)
              (fun s2 fvs hv hw => by cases hw)
          | map o =>
            rw [doApply_succ_other reg env k _ _ path hex hds
              (fun ety2 inner2 hv => by cases hv)
              (fun s2 fvs hv hw => by cases hw)] at h
            injection h with h1 h2
            subst h1
            subst h2
            exact doApply_succ_other reg env k _ _ path hex hds
              (fun ety2 inner2 hv => by cases hv)
              (fun s2 fvs hv hw => by cases hw)
          | ptr o =>
            rw [doApply_succ_other reg env k _ _ path hex hds
              (fun ety2 inner2 hv => by cases hv)
              (fun s2 fvs hv hw => by cases hw)] at h
            injection h with h1 h2
            subst h1
            subst h2
            exact doApply_succ_other reg env k _ _ path hex hds
              (fun ety2 inner2 hv => by cases hv)
              (fun s2 fvs hv hw => by cases hw)
        | bool =>
          rw [doApply_succ_other reg env k _ _ path hex hds
            (fun ety2 inner2 hv => by cases hv)
            (fun s2 fvs hv => by cases hv)] at h
          injection h with h1 h2
          subst h1
          subst h2
          exact doApply_succ_other reg env k _ _ path hex hds
            (fun ety2 inner2 hv => by cases hv)
            (fun s2 fvs hv => by cases hv)
        | int =>
          rw [doApply_succ_other reg env k _ _ path hex hds
            (fun ety2 inner2 hv => by cases hv)
            (fun s2 fvs hv => by cases hv)] at h
          injection h with h1 h2
          subst h1
          subst h2
          exact doApply_succ_other reg env k _ _ path hex hds
            (fun ety2 inner2 hv => by cases hv)
            (fun s2 fvs hv => by cases hv)
        | int8 =>
          rw [doApply_succ_other reg env k _ _ path hex hds
            (fun ety2 inner2 hv => by cases hv)
            (fun s2 fvs hv => by cases hv)] at h
          injection h with h1 h2
          subst h1
          subst h2
          exact doApply_succ_other reg env k _ _ path hex hds
            (fun ety2 inner2 hv => by cases hv)
            (fun s2 fvs hv => by cases hv)
        | int16 =>
          rw [doApply_succ_other reg env k _ _ path hex hds
            (fun ety2 inner2 hv => by cases hv)
            (fun s2 fvs hv => by cases hv)] at h
          injection h with h1 h2
          subst h1
          subst h2
          exact doApply_succ_other reg env k _ _ path hex hds
            (fun ety2 inner2 hv => by cases hv)
            (fun s2 fvs hv => by cases hv)
        | int32 =>
          rw [doApply_succ_other reg env k _ _ path hex hds
            (fun ety2 inner2 hv => by cases hv)
            (fun s2 fvs hv => by cases hv)] at h
          injection h with h1 h2
          subst h1
          subst h2
          exact doApply_succ_other reg env k _ _ path hex hds
            (fun ety2 inner2 hv => by cases hv)
            (fun s2 fvs hv => by cases hv)
        | int64 =>
          rw [doApply_succ_other reg env k _ _ path hex hds
            (fun ety2 inner2 hv => by cases hv)
            (fun s2 fvs hv => by cases hv)] at h
          injection h with h1 h2
          subst h1
          subst h2
          exact doApply_succ_other reg env k _ _ path hex hds
            (fun ety2 inner2 hv => by cases hv)
            (fun s2 fvs hv => by cases hv)
        | uint =>
          rw [doApply_succ_other reg env k _ _ path hex hds
            (fun ety2 inner2 hv => by cases hv)
            (fun s2 fvs hv => by cases hv)] at h
          injection h with h1 h2
          subst h1
          subst h2
          exact doApply_succ_other reg env k _ _ path hex hds
            (fun ety2 inner2 hv => by cases hv)
            (fun s2 fvs hv => by cases hv)
        | uint8 =>
          rw [doApply_succ_other reg env k _ _ path hex hds
            (fun ety2 inner2 hv => by cases hv)
            (fun s2 fvs hv => by cases hv)] at h
          injection h with h1 h2
          subst h1
          subst h2
          exact doApply_succ_other reg env k _ _ path hex hds
            (fun ety2 inner2 hv => by cases hv)
            (fun s2 fvs hv => by cases hv)
        | uint16 =>
          rw [doApply_succ_other reg env k _ _ path hex hds
            (fun ety2 inner2 hv => by cases hv)
            (fun s2 fvs hv => by cases hv)] at h
          injection h with h1 h2
          subst h1
          subst h2
          exact doApply_succ_other reg env k _ _ path hex hds
            (fun ety2 inner2 hv => by cases hv)
            (fun s2 fvs hv => by cases hv)
        | uint32 =>
          rw [doApply_succ_other reg env k _ _ path hex hds
            (fun ety2 inner2 hv => by cases hv)
            (fun s2 fvs hv => by cases hv)] at h
          injection h with h1 h2
          subst h1
          subst h2
          exact doApply_succ_other reg env k _ _ path hex hds
            (fun ety2 inner2 hv => by cases hv)
            (fun s2 fvs hv => by cases hv)
        | uint64 =>
          rw [doApply_succ_other reg env k _ _ path hex hds
            (fun ety2 inner2 hv => by cases hv)
            (fun s2 fvs hv => by cases hv)] at h
          injection h with h1 h2
          subst h1
          subst h2
          exact doApply_succ_other reg env k _ _ path hex hds
            (fun ety2 inner2 hv => by cases hv)
            (fun s2 fvs hv => by cases hv)
        | string =>
          rw [doApply_succ_other reg env k _ _ path hex hds
            (fun ety2 inner2 hv => by cases hv)
            (fun s2 fvs hv => by cases hv)] at h
          injection h with h1 h2
          subst h1
          subst h2
          exact doApply_succ_other reg env k _ _ path hex hds
            (fun ety2 inner2 hv => by cases hv)
            (fun s2 fvs hv => by cases hv)
        | slice e =>
          rw [doApply_succ_other reg env k _ _ path hex hds
            (fun ety2 inner2 hv => by cases hv)
            (fun s2 fvs hv => by cases hv)] at h
          injection h with h1 h2
          subst h1
          subst h2
          exact doApply_succ_other reg env k _ _ path hex hds
            (fun ety2 inner2 hv => by cases hv)
            (fun s2 fvs hv => by cases hv)
        | map ke ve =>
          rw [doApply_succ_other reg env k _ _ path hex hds
            (fun ety2 inner2 hv => by cases hv)
            (fun s2 fvs hv => by cases hv)] at h
          injection h with h1 h2
          subst h1
          subst h2
          exact doApply_succ_other reg env k _ _ path hex hds
            (fun ety2 inner2 hv => by cases hv)
            (fun s2 fvs hv => by cases hv)

/-- Stability lifted to the public entry point: the cycle check and the root
path depend only on the type, so a second run on the first run's output
reproduces it. -/
theorem applyDefaults_stable (reg : DefaulterRegistry) (env : Env) (hok : RegistryOk reg)
    (fuel : Nat) (ty : GoType) (v v1 : GoValue) (r1 : Option EngineErr)
    (h : applyDefaults reg env fuel ty v = (v1, r1)) :
    applyDefaults reg env fuel ty v1 = (v1, r1) := by
  have h0 := h
  cases ty with
  | ptr ety =>
    cases ety with
    | structRef s =>
      cases v with
      | ptr o =>
        cases o with
        | some sv =>
          unfold applyDefaults at h
          dsimp only at h
          cases hdet : detectPotentialCycles env (.structRef s) [] with
          | true =>
            rw [hdet] at h
            rw [if_pos rfl] at h
            injection h with h1 h2
            subst h1
            subst h2
            exact h0
          | false =>
            rw [hdet] at h
            rw [if_neg (fun hc : false = true => Bool.noConfusion hc)] at h
            rcases hgo : doApplyDefaults reg env fuel (.structRef s) sv (rootPath env s)
              with ⟨w1, rr⟩
            rw [hgo] at h
            injection h with h1 h2
            subst h1
            subst h2
            unfold applyDefaults
            dsimp only
            rw [hdet]
            rw [if_neg (fun hc : false = true => Bool.noConfusion hc)]
            rw [doApply_stable reg env hok fuel _ _ _ _ _ hgo]
        | none =>
          unfold applyDefaults at h
          injection h with h1 h2
          subst h1
          subst h2
          exact h0
      | _ =>
        unfold applyDefaults at h
        injection h with h1 h2
        subst h1
        subst h2
        exact h0
    | _ =>
      unfold applyDefaults at h
      injection h with h1 h2
      subst h1
      subst h2
      exact h0
  | _ =>
    unfold applyDefaults at h
    injection h with h1 h2
    subst h1
    subst h2
    exact h0

/-- C3: applying the engine twice in succession to the same record yields the
same final record state and result as applying it once — the second call
changes no field value.  The hypothesis that every registered converter is
well behaved (value-independent decisions, writes of one of the three
shapes) holds for the library's bundled registry (registryOk_instance). -/
theorem applyDefaults_idempotent (reg : DefaulterRegistry) (env : Env) (fuel : Nat)
    (ty : GoType) (v v1 : GoValue) (r1 : Option EngineErr)
    (hok : RegistryOk reg)
    (h : applyDefaults reg env fuel ty v = (v1, r1)) :
    applyDefaults reg env fuel ty v1 = (v1, r1) :=
  applyDefaults_stable reg env hok fuel ty v v1 r1 h

theorem applyDefaults_idempotent_witness :
    applyDefaults instanceRegistry envNested 9 (.ptr (.structRef "P"))
        (.ptr (some (.struct [.bool true, .struct [.int 123]]))) =
      (.ptr (some (.struct [.bool true, .struct [.int 123]])), none) :=
  applyDefaults_idempotent instanceRegistry envNested 9 (.ptr (.structRef "P"))
    (.ptr (some vNestedZero)) (.ptr (some (.struct [.bool true, .struct [.int 123]]))) none
    registryOk_instance rfl
